import Mathlib

/-!
# OpenDiablo2 entity/component asset pipeline

A shallow embedding of the systems in `d2core/d2systems` (file type resolver,
file source resolver, sprite factory, loading scene, time scale) over a
functional model of the component store.  Component maps are total functions from entity IDs
to optional payloads, one map per component kind, as in the Go code
(`FilePathMap`, `FileTypeMap`, ...).  Pointer mutation of a component that
was just fetched or added is modelled by updating the map at that entity.

External collaborators (archive loader, filesystem, sprite decoders, the Go
standard library's Unicode case table) are collected in `Env`; theorems
quantify over every `Env`.

Coordinates are kept in an arbitrary carrier `F`: the systems only store them
or add them, so the results hold for whatever addition the carrier provides.
-/

namespace OpenDiablo2

/-- The akara entity identifier (`akara.EID`). -/
abbrev EID := Nat

/-- The `d2enum.FileType` constants named by the systems. -/
inductive FileType
  | FileTypeUnknown
  | FileTypeMPQ
  | FileTypeD2
  | FileTypeDCC
  | FileTypeDC6
  | FileTypeWAV
  | FileTypeDS1
  | FileTypeDT1
  | FileTypePaletteTransform
  | FileTypePalette
  | FileTypeStringTable
  | FileTypeFontTable
  | FileTypeDataDictionary
  | FileTypeCOF
  | FileTypeJSON
  | FileTypeDirectory
  deriving DecidableEq, Repr

open FileType

/-- The component kinds of `d2components` that the systems' filters name. -/
inductive ComponentKind
  | FilePath
  | FileType
  | FileSource
  | FileHandle
  | GameConfig
  | StringTable
  | DataDictionary
  | Palette
  | PaletteTransform
  | Cof
  | Dc6
  | Dcc
  | Ds1
  | Dt1
  | Wav
  | AnimationData
  | Position
  | Velocity
  | Sprite
  | Texture
  | Origin
  | SegmentedSprite
  deriving DecidableEq, Repr

/-- An opened archive (`d2interface.Archive`), identified by its path. -/
structure Archive where
  path : String
  deriving DecidableEq, Repr

/-- The two implementations of `d2components.AbstractSource` in
`file_source_resolver.go`. -/
inductive AbstractSource
  | fsSource (rootDir : String)
  | mpqSource (mpq : Archive)
  deriving DecidableEq, Repr

/-- Decoded DC6 image data; decoding is an external collaborator, the value is a token. -/
abbrev DC6Data := Nat

/-- Decoded DCC image data (token). -/
abbrev DCCData := Nat

/-- Decoded palette data (token). -/
abbrev PaletteData := Nat

/-- A renderer-agnostic sprite object (`d2interface.Sprite`), as a token. -/
abbrev SpriteObject := Nat

/-- A renderer surface (`d2interface.Surface`), as a token. -/
abbrev Surface := Nat

structure FilePathComponent where
  Path : String
  deriving DecidableEq, Repr

/-- The `FileTypeComponent`; its Go field is called `Type`. -/
structure FileTypeComponent where
  Typ : FileType
  deriving DecidableEq, Repr

/-- The `FileSourceComponent`; a nil interface value is `none`. -/
structure FileSourceComponent where
  AbstractSource : Option AbstractSource
  deriving DecidableEq, Repr

structure PositionComponent (F : Type) where
  X : F
  Y : F

structure VelocityComponent (F : Type) where
  X : F
  Y : F

structure PaletteComponent where
  Palette : PaletteData
  deriving DecidableEq, Repr

structure Dc6Component where
  DC6 : DC6Data
  deriving DecidableEq, Repr

structure DccComponent where
  DCC : DCCData
  deriving DecidableEq, Repr

/-- The `SpriteComponent`; a nil `d2interface.Sprite` is `none`. -/
structure SpriteComponent where
  Sprite : Option SpriteObject
  deriving DecidableEq, Repr

structure TextureComponent where
  Texture : Option Surface
  deriving DecidableEq, Repr

/-- Observable effects of the systems on their collaborators: archive loads,
filesystem stats and log lines (format string and arguments). -/
inductive Event
  | mpqLoad (path : String)
  | lstat (path : String)
  | Errorf (fmt : String) (args : List String)
  | Infof (fmt : String) (args : List String)
  deriving DecidableEq, Repr

/-- One map per component kind, keyed by entity ID.  Kinds whose payload the
systems never read are kept as presence bits in `extra`. -/
structure Components (F : Type) where
  filePaths : EID → Option FilePathComponent
  fileTypes : EID → Option FileTypeComponent
  fileSources : EID → Option FileSourceComponent
  positions : EID → Option (PositionComponent F)
  velocities : EID → Option (VelocityComponent F)
  palettes : EID → Option PaletteComponent
  dc6s : EID → Option Dc6Component
  dccs : EID → Option DccComponent
  sprites : EID → Option SpriteComponent
  textures : EID → Option TextureComponent
  extra : ComponentKind → EID → Bool

/-- Modelled from the spec: the component store (`akara.World`), which is
library code outside the source files.  Entity IDs are issued monotonically
from `nextEID`; `TimeDelta` is the elapsed duration of the current tick in
nanoseconds; `events` records the effects on collaborators. -/
structure World (F : Type) where
  nextEID : EID
  TimeDelta : Int
  comps : Components F
  events : List Event

/-- Result of `os.Lstat` that the resolver reads: `info.Mode().IsDir()`. -/
structure FileInfo where
  IsDir : Bool
  deriving DecidableEq, Repr

/-- What a sprite constructor returns: the Go pair `(d2interface.Sprite, error)`. -/
structure SpriteResult where
  sprite : Option SpriteObject
  err : Option String
  deriving DecidableEq, Repr

/-- External collaborators.  `windows` selects the `os.IsPathSeparator` of the
platform; `toLowerTable` is `unicode.To(unicode.LowerCase, r)` for runes above
ASCII; `mpqLoad` is `d2mpq.Load` (`none` when it returns an error); `clean` is
`filepath.Clean`; `lstat` is `os.Lstat` (`none` when it returns an error);
`zeroFileType` is the Go zero value of `d2enum.FileType`; the last two are the
`d2sprite` constructors. -/
structure Env where
  windows : Bool
  toLowerTable : Char → Char
  mpqLoad : String → Option Archive
  clean : String → String
  lstat : String → Option FileInfo
  zeroFileType : FileType
  NewDC6Sprite : DC6Data → PaletteData → SpriteResult
  NewDCCSprite : DCCData → PaletteData → SpriteResult

variable {F : Type}

/-! ## Component store -/

/-- Modelled from the spec: `newEntity() → EntityID` allocates a fresh,
never-before-issued ID. -/
def World.NewEntity (w : World F) : EID × World F :=
  (w.nextEID, { w with nextEID := w.nextEID + 1 })

/-- All component maps with entity `id` erased. -/
def Components.erase (c : Components F) (id : EID) : Components F :=
  { filePaths := Function.update c.filePaths id none
    fileTypes := Function.update c.fileTypes id none
    fileSources := Function.update c.fileSources id none
    positions := Function.update c.positions id none
    velocities := Function.update c.velocities id none
    palettes := Function.update c.palettes id none
    dc6s := Function.update c.dc6s id none
    dccs := Function.update c.dccs id none
    sprites := Function.update c.sprites id none
    textures := Function.update c.textures id none
    extra := fun k => Function.update (c.extra k) id false }

/-- Modelled from the spec: `removeEntity(id)` removes `id` from all component
maps (and hence from every subscription); idempotent. -/
def World.RemoveEntity (w : World F) (id : EID) : World F :=
  { w with comps := w.comps.erase id }

/-- Appends an effect to the trace. -/
def World.emit (w : World F) (e : Event) : World F :=
  { w with events := w.events ++ [e] }

def World.GetFilePath (w : World F) (id : EID) : Option FilePathComponent :=
  w.comps.filePaths id

def World.GetFileType (w : World F) (id : EID) : Option FileTypeComponent :=
  w.comps.fileTypes id

def World.GetFileSource (w : World F) (id : EID) : Option FileSourceComponent :=
  w.comps.fileSources id

def World.GetPosition (w : World F) (id : EID) : Option (PositionComponent F) :=
  w.comps.positions id

def World.GetVelocity (w : World F) (id : EID) : Option (VelocityComponent F) :=
  w.comps.velocities id

def World.GetPalette (w : World F) (id : EID) : Option PaletteComponent :=
  w.comps.palettes id

def World.GetDc6 (w : World F) (id : EID) : Option Dc6Component :=
  w.comps.dc6s id

def World.GetDcc (w : World F) (id : EID) : Option DccComponent :=
  w.comps.dccs id

def World.GetSprite (w : World F) (id : EID) : Option SpriteComponent :=
  w.comps.sprites id

def World.GetTexture (w : World F) (id : EID) : Option TextureComponent :=
  w.comps.textures id

/-- Modelled from the spec: `addComponent(kind, id, value)` inserts/overwrites.
Each `setX` is `AddX(id)` followed by the assignment of the component's field. -/
def World.setFilePath (w : World F) (id : EID) (c : FilePathComponent) : World F :=
  { w with comps := { w.comps with filePaths := Function.update w.comps.filePaths id (some c) } }

def World.setFileType (w : World F) (id : EID) (c : FileTypeComponent) : World F :=
  { w with comps := { w.comps with fileTypes := Function.update w.comps.fileTypes id (some c) } }

def World.setFileSource (w : World F) (id : EID) (c : FileSourceComponent) : World F :=
  { w with comps := { w.comps with fileSources := Function.update w.comps.fileSources id (some c) } }

def World.setPosition (w : World F) (id : EID) (c : PositionComponent F) : World F :=
  { w with comps := { w.comps with positions := Function.update w.comps.positions id (some c) } }

def World.setSprite (w : World F) (id : EID) (c : SpriteComponent) : World F :=
  { w with comps := { w.comps with sprites := Function.update w.comps.sprites id (some c) } }

/-- Whether entity `id` currently holds a component of kind `k`. -/
def World.has (w : World F) (k : ComponentKind) (id : EID) : Bool :=
  match k with
  | .FilePath => (w.comps.filePaths id).isSome
  | .FileType => (w.comps.fileTypes id).isSome
  | .FileSource => (w.comps.fileSources id).isSome
  | .Position => (w.comps.positions id).isSome
  | .Velocity => (w.comps.velocities id).isSome
  | .Palette => (w.comps.palettes id).isSome
  | .Dc6 => (w.comps.dc6s id).isSome
  | .Dcc => (w.comps.dccs id).isSome
  | .Sprite => (w.comps.sprites id).isSome
  | .Texture => (w.comps.textures id).isSome
  | k => w.comps.extra k id

/-! ## Filters and subscriptions -/

/-- Modelled from the spec: a Filter is three lists of component kinds. -/
structure Filter where
  Required : List ComponentKind
  Forbidden : List ComponentKind
  RequireOne : List ComponentKind
  deriving DecidableEq, Repr

/-- Modelled from the spec: the matching rule of section 4.2.  The entity must
hold every Required kind, none of the Forbidden kinds and, when RequireOne is
non-empty, at least one kind of it. -/
def filterMatches (f : Filter) (holds : ComponentKind → Bool) : Bool :=
  f.Required.all holds && !(f.Forbidden.any holds) &&
    (f.RequireOne.isEmpty || f.RequireOne.any holds)

/-- Modelled from the spec: the entity set of a subscription is exactly the
issued entities that match its filter (`Subscription.GetEntities`). -/
def World.GetEntities (w : World F) (f : Filter) : List EID :=
  (List.range w.nextEID).filter (fun e => filterMatches f (fun k => w.has k e))

/-! ## Go standard library helpers -/

/-- The `os.IsPathSeparator` of Unix or Windows. -/
def IsPathSeparator (env : Env) (c : Char) : Bool :=
  c = '/' || (env.windows && c = '\\')

/-- The loop of `filepath.Ext`, run over the reversed path: `acc` is the part
of the path already passed (to the right of the current index). -/
def extLoop (env : Env) : List Char → List Char → List Char
  | [], _ => []
  | c :: rest, acc =>
    if IsPathSeparator env c then []
    else if c = '.' then '.' :: acc
    else extLoop env rest (c :: acc)

/-- The `filepath.Ext` function: the suffix beginning at the final dot in the final
element of the path, empty if there is no dot. -/
def filepathExt (env : Env) (path : String) : String :=
  ⟨extLoop env path.data.reverse []⟩

/-- The `unicode.ToLower` function: ASCII is lowered directly, other runes by the table. -/
def unicodeToLower (env : Env) (c : Char) : Char :=
  if c.toNat ≤ 127 then c.toLower else env.toLowerTable c

/-- The `strings.ToLower` function on a valid UTF-8 string. -/
def stringsToLower (env : Env) (s : String) : String :=
  ⟨s.data.map (unicodeToLower env)⟩

/-- The `strings.Contains` function. -/
def stringsContains (s substr : String) : Bool :=
  decide (substr.data <:+: s.data)

/-! ## File type resolver (`file_type_resolver.go`) -/

/-- The filter built in `NewFileTypeResolver`. -/
def FileTypeResolver.filesToCheck : Filter :=
  { Required := [.FilePath], Forbidden := [.FileType], RequireOne := [] }

/-- The `switch ext` of `determineFileType` without its default branch:
`none` means no case matched. -/
def extensionSwitch (path ext : String) : Option FileType :=
  if ext = ".mpq" then some FileTypeMPQ
  else if ext = ".d2" then some FileTypeD2
  else if ext = ".dcc" then some FileTypeDCC
  else if ext = ".dc6" then some FileTypeDC6
  else if ext = ".wav" then some FileTypeWAV
  else if ext = ".ds1" then some FileTypeDS1
  else if ext = ".dt1" then some FileTypeDT1
  else if ext = ".pl2" then some FileTypePaletteTransform
  else if ext = ".dat" then some FileTypePalette
  else if ext = ".tbl" then
    some (if stringsContains path "FONT" then FileTypeFontTable else FileTypeStringTable)
  else if ext = ".txt" then some FileTypeDataDictionary
  else if ext = ".cof" then some FileTypeCOF
  else if ext = ".json" then some FileTypeJSON
  else none

/-- The `FileTypeResolver.determineFileType` method.  `AddFileType` creates the component with
the zero `Type`; every branch but one then assigns it. -/
def FileTypeResolver.determineFileType (env : Env) (w : World F) (id : EID) : World F :=
  match w.GetFilePath id with
  | none => w
  | some fp =>
    let w := w.emit (.mpqLoad fp.Path)
    match env.mpqLoad fp.Path with
    | some _ => w.setFileType id ⟨FileTypeMPQ⟩
    | none =>
      let ext := stringsToLower env (filepathExt env fp.Path)
      match extensionSwitch fp.Path ext with
      | some t => w.setFileType id ⟨t⟩
      | none =>
        let cleanPath := env.clean fp.Path
        let w := w.emit (.lstat cleanPath)
        match env.lstat cleanPath with
        | none => w.setFileType id ⟨FileTypeUnknown⟩
        | some info =>
          if info.IsDir then w.setFileType id ⟨FileTypeDirectory⟩
          else w.setFileType id ⟨env.zeroFileType⟩

/-- The `FileTypeResolver.Update` method: one pass over the subscription's entities. -/
def FileTypeResolver.Update (env : Env) (w : World F) : World F :=
  (w.GetEntities FileTypeResolver.filesToCheck).foldl
    (fun w eid => FileTypeResolver.determineFileType env w eid) w

/-! ## File source resolver (`file_source_resolver.go`) -/

/-- The filter built in `NewFileSourceResolver`. -/
def FileSourceResolver.fileSub : Filter :=
  { Required := [.FilePath, .FileType], Forbidden := [.FileSource], RequireOne := [] }

/-- The `FileSourceResolver.makeFileSystemSource` method; `none` stands for a non-nil error,
which this function never returns. -/
def FileSourceResolver.makeFileSystemSource (path : String) : Option AbstractSource :=
  some (.fsSource path)

/-- The `FileSourceResolver.makeMpqSource` method; `none` stands for a non-nil error. -/
def FileSourceResolver.makeMpqSource (env : Env) (path : String) : Option AbstractSource :=
  match env.mpqLoad path with
  | none => none
  | some mpq => some (.mpqSource mpq)

/-- The `FileSourceResolver.processSourceEntity` method. -/
def FileSourceResolver.processSourceEntity (env : Env) (w : World F) (id : EID) : World F :=
  match w.GetFilePath id with
  | none => w
  | some fp =>
    match w.GetFileType id with
    | none => w
    | some ft =>
      match ft.Typ with
      | FileTypeUnknown => w.emit (.Errorf "unknown file type for file `%s`" [fp.Path])
      | FileTypeMPQ =>
        let w := w.emit (.mpqLoad fp.Path)
        match FileSourceResolver.makeMpqSource env fp.Path with
        | none => w.setFileType id ⟨FileTypeUnknown⟩
        | some inst =>
          (w.setFileSource id ⟨some inst⟩).emit (.Infof "using MPQ source for `%s`" [fp.Path])
      | FileTypeDirectory =>
        match FileSourceResolver.makeFileSystemSource fp.Path with
        | none => w.setFileType id ⟨FileTypeUnknown⟩
        | some inst =>
          (w.setFileSource id ⟨some inst⟩).emit
            (.Infof "using FILESYSTEM source for `%s`" [fp.Path])
      | _ => w

/-- The `FileSourceResolver.Update` method: one pass over the subscription's entities. -/
def FileSourceResolver.Update (env : Env) (w : World F) : World F :=
  (w.GetEntities FileSourceResolver.fileSub).foldl
    (fun w eid => FileSourceResolver.processSourceEntity env w eid) w

/-- Archive loads recorded in a trace. -/
def Event.isMpqLoad : Event → Bool
  | .mpqLoad _ => true
  | _ => false

/-! ## Sprite factory (`scene_sprite_system.go`) -/

def fmtCreateSpriteErr : String := "could not create sprite from image `%s` and palette `%s`"

structure spriteLoadQueueEntry where
  spriteImage : EID
  spritePalette : EID
  deriving DecidableEq, Repr

/-- The state of `SpriteFactory` that the queueing and creation methods use:
the world and the load queue (a Go map, absent keys are `none`). -/
structure SpriteFactory (F : Type) where
  World : World F
  loadQueue : EID → Option spriteLoadQueueEntry

def SpriteFactory.createDc6Sprite (env : Env) (dc6 : Dc6Component) (pal : PaletteComponent) :
    SpriteResult :=
  env.NewDC6Sprite dc6.DC6 pal.Palette

def SpriteFactory.createDccSprite (env : Env) (dcc : DccComponent) (pal : PaletteComponent) :
    SpriteResult :=
  env.NewDCCSprite dcc.DCC pal.Palette

/-- The `SpriteFactory.Sprite` method: queues a sprite to be loaded and returns its entity ID. -/
def SpriteFactory.Sprite (t : SpriteFactory F) (x y : F) (imgPath palPath : String) :
    EID × SpriteFactory F :=
  let (spriteID, w) := t.World.NewEntity
  let w := w.setPosition spriteID ⟨x, y⟩
  let (imgID, w) := w.NewEntity
  let (palID, w) := w.NewEntity
  let w := w.setFilePath imgID ⟨imgPath⟩
  let w := w.setFilePath palID ⟨palPath⟩
  (spriteID,
    { World := w
      loadQueue := Function.update t.loadQueue spriteID (some ⟨imgID, palID⟩) })

/-- The `(sprite, err)` pair of `tryCreatingSprite` after its two `if ... found` blocks:
both variables start nil, the DC6 block assigns them when the image entity
has a Dc6 component, then the DCC block assigns them when it has a Dcc. -/
def SpriteFactory.decode (env : Env) (w : OpenDiablo2.World F) (imageID : EID) (palette : PaletteComponent) :
    SpriteResult :=
  let r : SpriteResult := ⟨none, none⟩
  let r := match w.GetDc6 imageID with
    | some dc6 => SpriteFactory.createDc6Sprite env dc6 palette
    | none => r
  match w.GetDcc imageID with
  | some dcc => SpriteFactory.createDccSprite env dcc palette
  | none => r

/-- The `SpriteFactory.tryCreatingSprite` method.  A missing queue key reads as the zero entry. -/
def SpriteFactory.tryCreatingSprite (env : Env) (t : SpriteFactory F) (id : EID) :
    SpriteFactory F :=
  let entry := (t.loadQueue id).getD ⟨0, 0⟩
  let imageID := entry.spriteImage
  let paletteID := entry.spritePalette
  match t.World.GetFilePath imageID with
  | none => t
  | some imagePath =>
    match t.World.GetFilePath paletteID with
    | none => t
    | some palettePath =>
      match t.World.GetPalette paletteID with
      | none => t
      | some palette =>
        let r := SpriteFactory.decode env t.World imageID palette
        let w := match r.err with
          | some _ =>
            (((t.World.emit (.Errorf fmtCreateSpriteErr [imagePath.Path, palettePath.Path])
              ).RemoveEntity id).RemoveEntity imageID).RemoveEntity paletteID
          | none => t.World
        let w := w.setSprite id ⟨r.sprite⟩
        { World := w, loadQueue := Function.update t.loadQueue id none }

/-! ## Loading scene (`scene_loading_screen.go`) -/

/-- The kinds every stage filter lists after the file components: the parsed assets. -/
def LoadingScene.assetKinds : List ComponentKind :=
  [.GameConfig, .StringTable, .DataDictionary, .Palette, .PaletteTransform, .Cof, .Dc6, .Dcc,
    .Ds1, .Dt1, .Wav, .AnimationData]

/-- Stage 1 of `setupSubscriptions`: has path, no type. -/
def LoadingScene.stage1 : Filter :=
  { Required := [.FilePath]
    Forbidden := [.FileType, .FileHandle, .FileSource] ++ LoadingScene.assetKinds
    RequireOne := [] }

/-- Stage 2: has type, no handle. -/
def LoadingScene.stage2 : Filter :=
  { Required := [.FilePath, .FileType]
    Forbidden := [.FileHandle, .FileSource] ++ LoadingScene.assetKinds
    RequireOne := [] }

/-- Stage 3: has handle, no asset. -/
def LoadingScene.stage3 : Filter :=
  { Required := [.FilePath, .FileType, .FileHandle]
    Forbidden := [.FileSource] ++ LoadingScene.assetKinds
    RequireOne := [] }

/-- Stage 4: is loaded. -/
def LoadingScene.stage4 : Filter :=
  { Required := []
    Forbidden := []
    RequireOne := [.FileHandle, .FileSource] ++ LoadingScene.assetKinds }

/-! ### The float64 arithmetic of `updateLoadProgress`

The operands of the progress formula are conversions of lengths, their sums
and their quotients, so they are never negative; only the final `1 - x` can
be.  Finite values are kept as `mant * 2 ^ exp`; every operation computes the
exact rational result and rounds it to the nearest float64, ties to even, as
IEEE 754 binary64 arithmetic does. -/

/-- A float64 value that is not negative: finite `mant * 2 ^ exp`, +Inf or NaN. -/
inductive NonnegFloat64
  | finite (mant : Nat) (exp : Int)
  | inf
  | nan
  deriving DecidableEq, Repr

/-- A float64 value: finite `mant * 2 ^ exp`, an infinity or NaN.  Negative
zero is not represented; `updateLoadProgress` cannot produce it. -/
inductive Float64
  | finite (mant : Int) (exp : Int)
  | posInf
  | negInf
  | NaN
  deriving DecidableEq, Repr

/-- The number a finite float64 denotes. -/
def Float64.toRat : Float64 → Option ℚ
  | .finite m e => some ((m : ℚ) * (2 : ℚ) ^ e)
  | _ => none

/-- Floor of the binary logarithm by repeated halving; `fuel` bounds the
number of halvings. -/
def log2Fuel : Nat → Nat → Nat
  | 0, _ => 0
  | fuel + 1, n => if n < 2 then 0 else log2Fuel fuel (n / 2) + 1

/-- Floor of the binary logarithm of a positive natural number. -/
def natLog2 (n : Nat) : Nat :=
  log2Fuel n n

/-- Floor of the binary logarithm of the positive rational `n / d`: the `e`
with `2 ^ e ≤ n / d < 2 ^ (e + 1)`. -/
def floorLog2 (n d : Nat) : Int :=
  if d ≤ n then (natLog2 (n / d) : Int)
  else
    let k := natLog2 (d / n)
    if d ≤ n * 2 ^ k then -(k : Int) else -(k : Int) - 1

/-- The integer nearest to `a / b`, ties to the even one. -/
def roundHalfEven (a b : Nat) : Nat :=
  let q := a / b
  let r := a % b
  if 2 * r < b then q
  else if b < 2 * r then q + 1
  else if q % 2 = 0 then q else q + 1

/-- Exponent of the last of the 53 mantissa bits of `n / d`; below the
smallest normal binade (exponent -1022) the spacing stays `2 ^ (-1074)`. -/
def lastBitExp (n d : Nat) : Int :=
  max (floorLog2 n d) (-1022) - 52

/-- The rational `n / d` in units of `2 ^ e`, rounded to an integer. -/
def scaledMantissa (n d : Nat) (e : Int) : Nat :=
  if 0 ≤ e then roundHalfEven n (d * 2 ^ e.toNat) else roundHalfEven (n * 2 ^ (-e).toNat) d

/-- The float64 nearest to the non-negative rational `n / d` (round to nearest,
ties to even); a result of `2 ^ 1024` or more is +Inf. -/
def roundFloat64 (n d : Nat) : NonnegFloat64 :=
  if n = 0 then .finite 0 0
  else if 971 < lastBitExp n d ∨
      (lastBitExp n d = 971 ∧ 2 ^ 53 ≤ scaledMantissa n d (lastBitExp n d)) then .inf
  else if scaledMantissa n d (lastBitExp n d) = 0 then .finite 0 0
  else .finite (scaledMantissa n d (lastBitExp n d)) (lastBitExp n d)

/-- Numerator and denominator of `m * 2 ^ e`. -/
def fraction (m : Nat) (e : Int) : Nat × Nat :=
  if 0 ≤ e then (m * 2 ^ e.toNat, 1) else (m, 2 ^ (-e).toNat)

/-- The conversion `float64(n)` of a length or of a non-negative integer constant. -/
def NonnegFloat64.ofLen (n : Nat) : NonnegFloat64 :=
  roundFloat64 n 1

/-- Float64 addition of two non-negative values. -/
def NonnegFloat64.add : NonnegFloat64 → NonnegFloat64 → NonnegFloat64
  | .nan, _ => .nan
  | _, .nan => .nan
  | .inf, _ => .inf
  | _, .inf => .inf
  | .finite m1 e1, .finite m2 e2 =>
    let a := fraction m1 e1
    let b := fraction m2 e2
    roundFloat64 (a.1 * b.2 + b.1 * a.2) (a.2 * b.2)

/-- Float64 division of two non-negative values: `0 / 0` and `Inf / Inf` are
NaN, a positive value over zero is +Inf. -/
def NonnegFloat64.div : NonnegFloat64 → NonnegFloat64 → NonnegFloat64
  | .nan, _ => .nan
  | _, .nan => .nan
  | .inf, .inf => .nan
  | .inf, .finite _ _ => .inf
  | .finite _ _, .inf => .finite 0 0
  | .finite m1 e1, .finite m2 e2 =>
    if m2 = 0 then (if m1 = 0 then .nan else .inf)
    else
      let a := fraction m1 e1
      let b := fraction m2 e2
      roundFloat64 (a.1 * b.2) (a.2 * b.1)

/-- The float64 subtraction `1 - x` for a non-negative `x`. -/
def Float64.oneMinus : NonnegFloat64 → Float64
  | .nan => .NaN
  | .inf => .negInf
  | .finite m e =>
    let a := fraction m e
    if a.1 ≤ a.2 then
      match roundFloat64 (a.2 - a.1) a.2 with
      | .finite m e => .finite m e
      | .inf => .posInf
      | .nan => .NaN
    else
      match roundFloat64 (a.1 - a.2) a.2 with
      | .finite m e => .finite (-(m : Int)) e
      | .inf => .negInf
      | .nan => .NaN

/-- The part of `LoadingScene` that `updateLoadProgress` touches; `progress` is
the Go float64 field. -/
structure LoadingScene (F : Type) where
  World : World F
  progress : Float64

/-- The `LoadingScene.updateLoadProgress` method, in float64 arithmetic:
`s.progress = 1 - ((untyped + unhandled + unparsed) / 3 / loaded)`. -/
def LoadingScene.updateLoadProgress (s : LoadingScene F) : LoadingScene F :=
  let untyped := NonnegFloat64.ofLen (s.World.GetEntities LoadingScene.stage1).length
  let unhandled := NonnegFloat64.ofLen (s.World.GetEntities LoadingScene.stage2).length
  let unparsed := NonnegFloat64.ofLen (s.World.GetEntities LoadingScene.stage3).length
  let loaded := NonnegFloat64.ofLen (s.World.GetEntities LoadingScene.stage4).length
  { s with
    progress :=
      Float64.oneMinus
        ((((untyped.add unhandled).add unparsed).div (NonnegFloat64.ofLen 3)).div loaded) }

/-! ## Movement system and scheduler -/

/-- Modelled from the spec: the movement system's source file is not among the
source files (only its test is).  Section 4.5: it subscribes to entities with
both Position and Velocity. -/
def MovementSystem.filter : Filter :=
  { Required := [.Position, .Velocity], Forbidden := [], RequireOne := [] }

/-- Modelled from the spec: the per-entity step of the movement system,
`position += velocity` componentwise. -/
def MovementSystem.move [Add F] (w : World F) (id : EID) : World F :=
  match w.GetPosition id, w.GetVelocity id with
  | some p, some v => w.setPosition id ⟨p.X + v.X, p.Y + v.Y⟩
  | _, _ => w

/-- Modelled from the spec: the movement system's Update, one pass over its
subscription, not using the elapsed duration. -/
def MovementSystem.Update [Add F] (w : World F) : World F :=
  (w.GetEntities MovementSystem.filter).foldl (fun w eid => MovementSystem.move w eid) w

/-- Modelled from the spec: a System is an Active flag and an Update. -/
structure System (F : Type) where
  Active : Bool
  Update : World F → World F

/-- Modelled from the spec: one scheduler tick (`World.Update`), section 4.3.
The world's elapsed duration is set to the external delta, then Update is
called on every Active system in registration order; Inactive systems are
skipped. -/
def World.Update (systems : List (System F)) (w : World F) (dt : Int) : World F :=
  systems.foldl (fun w sys => if sys.Active then sys.Update w else w) { w with TimeDelta := dt }

/-! ## Example worlds -/

/-- The store with no component on any entity. -/
def Components.empty : Components F :=
  { filePaths := fun _ => none
    fileTypes := fun _ => none
    fileSources := fun _ => none
    positions := fun _ => none
    velocities := fun _ => none
    palettes := fun _ => none
    dc6s := fun _ => none
    dccs := fun _ => none
    sprites := fun _ => none
    textures := fun _ => none
    extra := fun _ _ => false }

/-- A world with `n` issued entities and no components. -/
def World.empty (n : Nat) : World F :=
  { nextEID := n, TimeDelta := 0, comps := Components.empty, events := [] }

/-- An environment in which every archive load and every stat fails and
every decode fails. -/
def Env.failing : Env :=
  { windows := false
    toLowerTable := id
    mpqLoad := fun _ => none
    clean := id
    lstat := fun _ => none
    zeroFileType := FileTypeUnknown
    NewDC6Sprite := fun _ _ => ⟨none, some "decode failed"⟩
    NewDCCSprite := fun _ _ => ⟨none, some "decode failed"⟩ }

/-! ## The extension table as the specification states it -/

/-- The extensions that the table assigns a fixed file type to. -/
def specExtensionTable : List (String × FileType) :=
  [(".mpq", FileTypeMPQ), (".d2", FileTypeD2), (".dcc", FileTypeDCC), (".dc6", FileTypeDC6),
    (".wav", FileTypeWAV), (".ds1", FileTypeDS1), (".dt1", FileTypeDT1),
    (".pl2", FileTypePaletteTransform), (".dat", FileTypePalette),
    (".txt", FileTypeDataDictionary), (".cof", FileTypeCOF), (".json", FileTypeJSON)]

/-- The type the table assigns to `.tbl`, which depends on the whole path. -/
def specTblType (path : String) : FileType :=
  if stringsContains path "FONT" then FileTypeFontTable else FileTypeStringTable

/-- All extensions of the table. -/
def extensionKeys : List String :=
  ".tbl" :: specExtensionTable.map Prod.fst

/-- A character that is ASCII and is neither a dot nor a path separator of
either platform. -/
def plainChar (d : Char) : Bool :=
  decide (d.toNat ≤ 127) && d != '.' && d != '/' && d != '\\'

/-- An environment whose filesystem has the directory `data` and nothing else. -/
def Env.withDataDir : Env :=
  { Env.failing with lstat := fun p => if p = "data" then some ⟨true⟩ else none }

/-- A world with one file entity, whose path is `p`. -/
def World.oneFile (p : String) : World F :=
  (World.empty 1).setFilePath 0 ⟨p⟩

/-- A sprite factory with one queued sprite: sprite entity 0 with a position,
image entity 1 and palette entity 2 with their paths, a Palette on entity 2
and, when `decoded` is set, a Dc6 on the image entity. -/
def SpriteFactory.queued (decoded : Bool) : SpriteFactory Int :=
  let w : OpenDiablo2.World Int :=
    (((World.empty 3).setPosition 0 ⟨0, 0⟩).setFilePath 1 ⟨"img.dc6"⟩).setFilePath 2 ⟨"pal.dat"⟩
  { World :=
      { w with
        comps :=
          { w.comps with
            palettes := Function.update w.comps.palettes 2 (some ⟨7⟩)
            dc6s := if decoded then Function.update w.comps.dc6s 1 (some ⟨5⟩) else w.comps.dc6s } }
    loadQueue := Function.update (fun _ => none) 0 (some ⟨1, 2⟩) }

/-- A world with one file entity of path `p` and file type `t`. -/
def World.oneTypedFile (p : String) (t : FileType) : World F :=
  (World.oneFile p).setFileType 0 ⟨t⟩

/-- Repeated later calls of `processSourceEntity` on one entity, one per
tick, each under its own environment. -/
def FileSourceResolver.laterCalls (envs : List Env) (w : World F) (id : EID) : World F :=
  envs.foldl (fun w env => FileSourceResolver.processSourceEntity env w id) w

/-- The archive loads recorded in the world's trace. -/
def World.mpqLoads (w : World F) : List Event :=
  w.events.filter Event.isMpqLoad

/-- A loading scene over a world with four entities, each holding only a
FileHandle. -/
def LoadingScene.fourLoaded : LoadingScene Int :=
  { World :=
      { nextEID := 4
        TimeDelta := 0
        comps := { (Components.empty : Components Int) with
          extra := fun k _ => decide (k = ComponentKind.FileHandle) }
        events := [] }
    progress := .finite 0 0 }

/-- A movement system's world: entity 0 at (10, 10) with velocity (1, -1). -/
def World.oneMover : World Int :=
  let w : World Int := (World.empty 1).setPosition 0 ⟨10, 10⟩
  { w with comps := { w.comps with
      velocities := Function.update w.comps.velocities 0 (some ⟨1, -1⟩) } }

/-! ## Time scale system (`timescale.go`) -/

/-- The `defaultScale` constant. -/
def defaultScale : ℚ := 1

/-- Two's-complement wrap of an integer into the int64 range, as Go's int64
multiplication does on overflow. -/
def wrapInt64 (x : Int) : Int :=
  (x + 2 ^ 63) % 2 ^ 64 - 2 ^ 63

/-- The Go conversion `time.Duration(f)` of a finite float64 `f`, given as the
rational it denotes: the fraction is discarded (truncation towards zero).
When the truncated value does not fit int64 the Go result is
implementation-specific; `outOfRange` supplies it. -/
def timeDuration (outOfRange : ℚ → Int) (f : ℚ) : Int :=
  let t := Int.tdiv f.num f.den
  if -2 ^ 63 ≤ t ∧ t < 2 ^ 63 then t else outOfRange f

/-- The `TimeScaleSystem` struct: the world of its embedded base system, the active
flag of the base system and the float64 `scale` as the rational it denotes. -/
structure TimeScaleSystem (F : Type) where
  World : World F
  active : Bool
  scale : ℚ

def TimeScaleSystem.Active (t : TimeScaleSystem F) : Bool :=
  t.active

/-- The `TimeScaleSystem.Init` method. -/
def TimeScaleSystem.Init (t : TimeScaleSystem F) (world : OpenDiablo2.World F) :
    TimeScaleSystem F :=
  { t with World := world, scale := defaultScale }

/-- The `TimeScaleSystem.Process` method: `t.World.TimeDelta *= time.Duration(t.scale)`. -/
def TimeScaleSystem.Process (outOfRange : ℚ → Int) (t : TimeScaleSystem F) :
    TimeScaleSystem F :=
  if !t.Active then t
  else
    { t with
      World :=
        { t.World with
          TimeDelta := wrapInt64 (t.World.TimeDelta * timeDuration outOfRange t.scale) } }

/-- An active time scale system at half speed, in a world whose elapsed
duration is one second. -/
def TimeScaleSystem.halfSpeed : TimeScaleSystem Int :=
  { World := { (World.empty 0 : OpenDiablo2.World Int) with TimeDelta := 1000000000 }
    active := true
    scale := mkRat 1 2 }

/-! ## Archive paths (`mpqSource` in `file_source_resolver.go`) -/

/-- The call `strings.ReplaceAll(path, "/", "\\")`: both strings are one ASCII
byte, so the replacement is character by character. -/
def replaceSlashes (path : String) : String :=
  ⟨path.data.map (fun c => if c = '/' then '\\' else c)⟩

/-- The `mpqSource.cleanMpqPath` method; `none` is the run-time failure of the index
expression `path[0]` on an empty string. -/
def mpqSource.cleanMpqPath (path : String) : Option String :=
  let path := replaceSlashes path
  match path.data with
  | [] => none
  | c :: rest => if c = '\\' then some ⟨rest⟩ else some path

/-- What the specification says the cleaned path is, step two: at most one
leading backslash removed. -/
def specStripLeadingBackslash : List Char → List Char
  | '\\' :: rest => rest
  | l => l

/-- What the specification says the cleaned path is: every slash replaced by
a backslash, then at most one leading backslash removed. -/
def specCleanPath (path : String) : String :=
  ⟨specStripLeadingBackslash (path.data.map (fun c => if c = '/' then '\\' else c))⟩

/-- A world with one file entity that has its path, a type and a FileHandle,
and no parsed asset yet. -/
def World.oneHandled : World Int :=
  let w : World Int := World.oneTypedFile "/data/global/ui/Loading/loadingscreen.dc6" FileTypeDC6
  { w with comps := { w.comps with
      extra := fun k e => decide (k = ComponentKind.FileHandle ∧ e = 0) } }

/-- A loading scene whose only entity has a FileHandle and no parsed asset:
the stage sizes are 0, 0, 1 and 1. -/
def LoadingScene.oneUnparsed : LoadingScene Int :=
  { World := World.oneHandled, progress := .finite 0 0 }

end OpenDiablo2

/-! # Theorems -/

namespace OpenDiablo2

open FileType

variable {F : Type}

/-! ## Store lemmas -/

@[simp] theorem getFileType_setFileType (w : World F) (id e : EID) (c : FileTypeComponent) :
    (w.setFileType id c).GetFileType e = if e = id then some c else w.GetFileType e := by
  simp [World.GetFileType, World.setFileType, Function.update_apply]

@[simp] theorem getFilePath_setFileType (w : World F) (id e : EID) (c : FileTypeComponent) :
    (w.setFileType id c).GetFilePath e = w.GetFilePath e := rfl

@[simp] theorem getFileSource_setFileType (w : World F) (id e : EID) (c : FileTypeComponent) :
    (w.setFileType id c).GetFileSource e = w.GetFileSource e := rfl

@[simp] theorem getFileType_emit (w : World F) (ev : Event) (e : EID) :
    (w.emit ev).GetFileType e = w.GetFileType e := rfl

@[simp] theorem getFilePath_emit (w : World F) (ev : Event) (e : EID) :
    (w.emit ev).GetFilePath e = w.GetFilePath e := rfl

@[simp] theorem getFileSource_emit (w : World F) (ev : Event) (e : EID) :
    (w.emit ev).GetFileSource e = w.GetFileSource e := rfl

/-! ## Characters and extensions -/

theorem toLower_toNat (c : Char) :
    c.toLower.toNat = if 65 ≤ c.toNat ∧ c.toNat ≤ 90 then c.toNat + 32 else c.toNat := by
  unfold Char.toLower
  simp only [ge_iff_le]
  split
  · have hv : (c.toNat + 32).isValidChar := by
      left; omega
    simp only [Char.ofNat, Char.ofNatAux, Char.toNat] at hv ⊢
    rw [dif_pos hv]
    simp [UInt32.toNat]
  · rfl

theorem char_eq_of_toNat_eq (c d : Char) (h : c.toNat = d.toNat) : c = d := by
  apply Char.ext
  apply UInt32.ext
  exact h

theorem plainChar_iff (d : Char) :
    plainChar d = true ↔ d.toNat ≤ 127 ∧ d ≠ '.' ∧ d ≠ '/' ∧ d ≠ '\\' := by
  simp [plainChar, and_assoc]

theorem toLower_dot (a : Char) (h : a.toLower = '.') : a = '.' := by
  have h1 := toLower_toNat a
  rw [h] at h1
  have h2 : ('.' : Char).toNat = 46 := rfl
  rw [h2] at h1
  apply char_eq_of_toNat_eq
  rw [h2]
  split at h1 <;> omega

theorem isPathSeparator_eq_false (env : Env) (c : Char) (h1 : c ≠ '/') (h2 : c ≠ '\\') :
    IsPathSeparator env c = false := by
  simp [IsPathSeparator, h1, h2]

theorem plain_of_toLower (env : Env) (c d : Char) (h : c.toLower = d) (hd : plainChar d = true) :
    c ≠ '.' ∧ IsPathSeparator env c = false ∧ unicodeToLower env c = d := by
  rw [plainChar_iff] at hd
  obtain ⟨h127, hdot, hsl, hbs⟩ := hd
  have hn := toLower_toNat c
  rw [h] at hn
  have hc127 : c.toNat ≤ 127 := by
    split at hn <;> omega
  have fix : ∀ x : Char, x.toLower = x → c = x → d = x := by
    intro x hx hcx
    rw [← h, hcx, hx]
  refine ⟨?_, ?_, ?_⟩
  · intro hc
    exact hdot (fix '.' rfl hc)
  · apply isPathSeparator_eq_false
    · intro hc
      exact hsl (fix '/' rfl hc)
    · intro hc
      exact hbs (fix '\\' rfl hc)
  · simp [unicodeToLower, hc127, h]

theorem extLoop_plain (env : Env) (rest : List Char) :
    ∀ (r acc : List Char), (∀ c ∈ r, c ≠ '.' ∧ IsPathSeparator env c = false) →
      extLoop env (r ++ '.' :: rest) acc = '.' :: (r.reverse ++ acc) := by
  intro r
  induction r with
  | nil =>
    intro acc _
    have hsep : IsPathSeparator env '.' = false :=
      isPathSeparator_eq_false env '.' (by decide) (by decide)
    simp [extLoop, hsep]
  | cons c r ih =>
    intro acc hr
    have hc := hr c (List.mem_cons_self c r)
    have hr2 : ∀ x ∈ r, x ≠ '.' ∧ IsPathSeparator env x = false :=
      fun x hx => hr x (List.mem_cons_of_mem c hx)
    simp [extLoop, hc.1, hc.2, ih (c :: acc) hr2]

theorem filepathExt_append (env : Env) (s : String) (r : List Char)
    (hr : ∀ c ∈ r, c ≠ '.' ∧ IsPathSeparator env c = false) :
    filepathExt env (s ++ ⟨'.' :: r⟩) = ⟨'.' :: r⟩ := by
  have hrev : ∀ c ∈ r.reverse, c ≠ '.' ∧ IsPathSeparator env c = false :=
    fun c hc => hr c (List.mem_reverse.mp hc)
  have h := extLoop_plain env s.data.reverse r.reverse [] hrev
  simp only [List.reverse_reverse, List.append_nil] at h
  simp only [filepathExt, String.data_append, List.reverse_append, List.reverse_cons,
    List.append_assoc, List.singleton_append]
  rw [h]

/-- The lower-cased extension of a path that ends in an ASCII case variant
`e` of a key `'.' :: kr` is that key. -/
theorem lowerExt_of_variant (env : Env) (s e : String) (kr : List Char)
    (hmap : e.data.map Char.toLower = '.' :: kr) (hkr : ∀ d ∈ kr, plainChar d = true) :
    stringsToLower env (filepathExt env (s ++ e)) = ⟨'.' :: kr⟩ := by
  obtain ⟨ed⟩ := e
  cases ed with
  | nil => simp at hmap
  | cons a r =>
    simp only [List.map_cons, List.cons.injEq] at hmap
    obtain ⟨ha, hr⟩ := hmap
    have ha2 : a = '.' := toLower_dot a ha
    subst ha2
    have hall : ∀ c ∈ r, c ≠ '.' ∧ IsPathSeparator env c = false ∧
        unicodeToLower env c = c.toLower := by
      intro c hc
      have hmem : c.toLower ∈ kr := by
        rw [← hr]
        exact List.mem_map_of_mem _ hc
      exact plain_of_toLower env c c.toLower rfl (hkr _ hmem)
    rw [filepathExt_append env s r (fun c hc => ⟨(hall c hc).1, (hall c hc).2.1⟩)]
    simp only [stringsToLower, List.map_cons]
    have hdot : unicodeToLower env '.' = '.' := by
      simp [unicodeToLower]
    rw [hdot]
    have hmap2 : r.map (unicodeToLower env) = r.map Char.toLower :=
      List.map_congr_left (fun c hc => (hall c hc).2.2)
    rw [hmap2, hr]

theorem key_shape (k : String) (hk : k ∈ extensionKeys) :
    ∃ kr, k = ⟨'.' :: kr⟩ ∧ ∀ d ∈ kr, plainChar d = true := by
  simp only [extensionKeys, specExtensionTable, List.map_cons, List.map_nil, List.mem_cons,
    List.mem_singleton, List.not_mem_nil, or_false] at hk
  rcases hk with h | h | h | h | h | h | h | h | h | h | h | h | h <;> subst h
  all_goals first
    | exact ⟨['t', 'b', 'l'], rfl, by decide⟩
    | exact ⟨['m', 'p', 'q'], rfl, by decide⟩
    | exact ⟨['d', '2'], rfl, by decide⟩
    | exact ⟨['d', 'c', 'c'], rfl, by decide⟩
    | exact ⟨['d', 'c', '6'], rfl, by decide⟩
    | exact ⟨['w', 'a', 'v'], rfl, by decide⟩
    | exact ⟨['d', 's', '1'], rfl, by decide⟩
    | exact ⟨['d', 't', '1'], rfl, by decide⟩
    | exact ⟨['p', 'l', '2'], rfl, by decide⟩
    | exact ⟨['d', 'a', 't'], rfl, by decide⟩
    | exact ⟨['t', 'x', 't'], rfl, by decide⟩
    | exact ⟨['c', 'o', 'f'], rfl, by decide⟩
    | exact ⟨['j', 's', 'o', 'n'], rfl, by decide⟩

theorem extensionSwitch_of_table (path k : String) (t : FileType)
    (h : (k, t) ∈ specExtensionTable) : extensionSwitch path k = some t := by
  simp only [specExtensionTable, List.mem_cons, List.mem_singleton, Prod.mk.injEq,
    List.not_mem_nil, or_false] at h
  rcases h with h | h | h | h | h | h | h | h | h | h | h | h <;> obtain ⟨h1, h2⟩ := h <;>
    subst h1 <;> subst h2 <;> simp [extensionSwitch]

theorem extensionSwitch_tbl (path : String) :
    extensionSwitch path ".tbl" = some (specTblType path) := by
  simp [extensionSwitch, specTblType]

theorem extensionSwitch_of_not_key (path ext : String) (h : ext ∉ extensionKeys) :
    extensionSwitch path ext = none := by
  simp only [extensionKeys, specExtensionTable, List.map_cons, List.map_nil, List.mem_cons,
    List.mem_singleton, List.not_mem_nil, or_false, not_or] at h
  obtain ⟨h0, h1, h2, h3, h4, h5, h6, h7, h8, h9, h10, h11, h12⟩ := h
  simp [extensionSwitch, h0, h1, h2, h3, h4, h5, h6, h7, h8, h9, h10, h11, h12]

theorem determineFileType_of_switch (env : Env) (w : World F) (id : EID) (fp : FilePathComponent)
    (t : FileType) (hfp : w.GetFilePath id = some fp) (hprobe : env.mpqLoad fp.Path = none)
    (hsw : extensionSwitch fp.Path (stringsToLower env (filepathExt env fp.Path)) = some t) :
    (FileTypeResolver.determineFileType env w id).GetFileType id = some ⟨t⟩ := by
  simp [FileTypeResolver.determineFileType, hfp, hprobe, hsw]

/-! ## File type resolution -/

/-- C3: when the archive probe fails on an entity's path, `determineFileType`
attaches the file type that the extension table assigns to the lower-cased
extension of the path: the fixed type for the twelve plain extensions, and
for `.tbl` FontTable if the path contains "FONT" and StringTable otherwise.
This holds for every environment, hence whatever the filesystem answers, and
for every ASCII letter-case variant `e` of an extension `k` that the path
ends in; in particular every path ending in `.dc6` yields DC6. -/
theorem determineFileType_extension (env : Env) (w : World F) (id : EID)
    (fp : FilePathComponent) (hfp : w.GetFilePath id = some fp)
    (hprobe : env.mpqLoad fp.Path = none) :
    (∀ k t, (k, t) ∈ specExtensionTable →
        stringsToLower env (filepathExt env fp.Path) = k →
        (FileTypeResolver.determineFileType env w id).GetFileType id = some ⟨t⟩) ∧
    (stringsToLower env (filepathExt env fp.Path) = ".tbl" →
        (FileTypeResolver.determineFileType env w id).GetFileType id
          = some ⟨specTblType fp.Path⟩) ∧
    (∀ s e k t, fp.Path = s ++ e → e.data.map Char.toLower = k.data →
        (k, t) ∈ specExtensionTable →
        (FileTypeResolver.determineFileType env w id).GetFileType id = some ⟨t⟩) ∧
    (∀ s e, fp.Path = s ++ e → e.data.map Char.toLower = ".tbl".data →
        (FileTypeResolver.determineFileType env w id).GetFileType id
          = some ⟨specTblType fp.Path⟩) ∧
    (∀ s, fp.Path = s ++ ".dc6" →
        (FileTypeResolver.determineFileType env w id).GetFileType id = some ⟨FileTypeDC6⟩) := by
  have table : ∀ k t, (k, t) ∈ specExtensionTable →
      stringsToLower env (filepathExt env fp.Path) = k →
      (FileTypeResolver.determineFileType env w id).GetFileType id = some ⟨t⟩ := by
    intro k t hkt hk
    apply determineFileType_of_switch env w id fp t hfp hprobe
    rw [hk]
    exact extensionSwitch_of_table fp.Path k t hkt
  have tbl : stringsToLower env (filepathExt env fp.Path) = ".tbl" →
      (FileTypeResolver.determineFileType env w id).GetFileType id
        = some ⟨specTblType fp.Path⟩ := by
    intro hk
    apply determineFileType_of_switch env w id fp _ hfp hprobe
    rw [hk]
    exact extensionSwitch_tbl fp.Path
  have variant : ∀ s e k, fp.Path = s ++ e → e.data.map Char.toLower = k.data →
      k ∈ extensionKeys → stringsToLower env (filepathExt env fp.Path) = k := by
    intro s e k hp he hk
    obtain ⟨kr, hk1, hk2⟩ := key_shape k hk
    subst hk1
    rw [hp]
    exact lowerExt_of_variant env s e kr he hk2
  refine ⟨table, tbl, ?_, ?_, ?_⟩
  · intro s e k t hp he hkt
    have hk : k ∈ extensionKeys := by
      apply List.mem_cons_of_mem
      exact List.mem_map_of_mem Prod.fst hkt
    exact table k t hkt (variant s e k hp he hk)
  · intro s e hp he
    exact tbl (variant s e ".tbl" hp he (List.mem_cons_self _ _))
  · intro s hp
    have hkt : (".dc6", FileTypeDC6) ∈ specExtensionTable := by
      simp [specExtensionTable]
    have hk : ".dc6" ∈ extensionKeys := by
      apply List.mem_cons_of_mem
      exact List.mem_map_of_mem Prod.fst hkt
    exact table ".dc6" FileTypeDC6 hkt (variant s ".dc6" ".dc6" hp rfl hk)

/-- Witness for C3: the loading screen image with an upper-case extension,
on a filesystem where every stat fails, is typed DC6. -/
theorem determineFileType_extension_witness :
    (FileTypeResolver.determineFileType Env.failing
        (World.oneFile "/data/global/ui/Loading/loadingscreen.DC6" : World Int) 0).GetFileType 0
      = some ⟨FileTypeDC6⟩ :=
  (determineFileType_extension Env.failing
      (World.oneFile "/data/global/ui/Loading/loadingscreen.DC6") 0
      ⟨"/data/global/ui/Loading/loadingscreen.DC6"⟩ rfl rfl).2.2.1
    "/data/global/ui/Loading/loadingscreen" ".DC6" ".dc6" FileTypeDC6 rfl rfl
    (by simp [specExtensionTable])

theorem determineFileType_all_fail (env : Env) (w : World F) (id : EID)
    (fp : FilePathComponent) (hfp : w.GetFilePath id = some fp)
    (hprobe : env.mpqLoad fp.Path = none)
    (hext : stringsToLower env (filepathExt env fp.Path) ∉ extensionKeys)
    (hstat : env.lstat (env.clean fp.Path) = none) :
    (FileTypeResolver.determineFileType env w id).GetFileType id
      = some ⟨FileTypeUnknown⟩ := by
  have hsw := extensionSwitch_of_not_key fp.Path _ hext
  simp [FileTypeResolver.determineFileType, hfp, hprobe, hsw, hstat]

/-- C4: when the archive probe fails and the lower-cased extension is not in
the extension table, `determineFileType` yields Directory if the stat of the
cleaned path succeeds and reports a directory, and Unknown if the stat fails. -/
theorem determineFileType_fallback (env : Env) (w : World F) (id : EID)
    (fp : FilePathComponent) (hfp : w.GetFilePath id = some fp)
    (hprobe : env.mpqLoad fp.Path = none)
    (hext : stringsToLower env (filepathExt env fp.Path) ∉ extensionKeys) :
    (∀ info, env.lstat (env.clean fp.Path) = some info → info.IsDir = true →
        (FileTypeResolver.determineFileType env w id).GetFileType id
          = some ⟨FileTypeDirectory⟩) ∧
    (env.lstat (env.clean fp.Path) = none →
        (FileTypeResolver.determineFileType env w id).GetFileType id
          = some ⟨FileTypeUnknown⟩) := by
  have hsw := extensionSwitch_of_not_key fp.Path _ hext
  constructor
  · intro info hstat hdir
    simp [FileTypeResolver.determineFileType, hfp, hprobe, hsw, hstat, hdir]
  · intro hstat
    exact determineFileType_all_fail env w id fp hfp hprobe hext hstat

/-- Witness for C4: the path `data` has no extension and stats as a directory. -/
theorem determineFileType_fallback_witness :
    (FileTypeResolver.determineFileType Env.withDataDir
        (World.oneFile "data" : World Int) 0).GetFileType 0 = some ⟨FileTypeDirectory⟩ :=
  (determineFileType_fallback Env.withDataDir (World.oneFile "data") 0 ⟨"data"⟩ rfl rfl
    (by decide)).1 ⟨true⟩ rfl rfl

/-! ## Sprite creation -/

/-- Once the two file paths and the palette are found, `tryCreatingSprite`
reaches `AddSprite` whatever the decode returned. -/
theorem tryCreatingSprite_attaches (env : Env) (t : SpriteFactory F) (id : EID)
    (entry : spriteLoadQueueEntry) (imagePath palettePath : FilePathComponent)
    (palette : PaletteComponent) (hq : t.loadQueue id = some entry)
    (hi : t.World.GetFilePath entry.spriteImage = some imagePath)
    (hp : t.World.GetFilePath entry.spritePalette = some palettePath)
    (hpal : t.World.GetPalette entry.spritePalette = some palette) :
    ((SpriteFactory.tryCreatingSprite env t id).World.GetSprite id
      = some ⟨(SpriteFactory.decode env t.World entry.spriteImage palette).sprite⟩) ∧
    (SpriteFactory.tryCreatingSprite env t id).loadQueue id = none := by
  simp [SpriteFactory.tryCreatingSprite, hq, hi, hp, hpal, World.GetSprite, World.setSprite]

/-- C1 (evaluation at the failing input): with image path, palette path,
Palette and a Dc6 present and a decode that returns an error, the call removes
the three entities but then still attaches a Sprite component (holding a nil
sprite) to the removed sprite entity. -/
theorem tryCreatingSprite_error_leaves_sprite :
    (SpriteFactory.decode Env.failing (SpriteFactory.queued true).World 1 ⟨7⟩).err
      = some "decode failed" ∧
    (SpriteFactory.tryCreatingSprite Env.failing (SpriteFactory.queued true) 0).World.GetSprite 0
      = some ⟨none⟩ ∧
    (SpriteFactory.tryCreatingSprite Env.failing (SpriteFactory.queued true) 0).World.has
      .Sprite 0 = true ∧
    (SpriteFactory.tryCreatingSprite Env.failing (SpriteFactory.queued true) 0).World.has
      .Position 0 = false ∧
    (SpriteFactory.tryCreatingSprite Env.failing (SpriteFactory.queued true) 0).World.has
      .FilePath 1 = false ∧
    (SpriteFactory.tryCreatingSprite Env.failing (SpriteFactory.queued true) 0).World.has
      .Dc6 1 = false ∧
    (SpriteFactory.tryCreatingSprite Env.failing (SpriteFactory.queued true) 0).World.has
      .FilePath 2 = false ∧
    (SpriteFactory.tryCreatingSprite Env.failing (SpriteFactory.queued true) 0).World.has
      .Palette 2 = false := by
  refine ⟨rfl, rfl, rfl, rfl, rfl, rfl, rfl, rfl⟩

/-- C6 (evaluation at the failing input): with image path, palette path and
Palette present but neither Dc6 nor Dcc on the image entity, the call does not
leave the state unchanged: it attaches a Sprite component holding a nil sprite
and deletes the load-queue entry. -/
theorem tryCreatingSprite_undecoded_attaches_sprite :
    (SpriteFactory.queued false).World.GetDc6 1 = none ∧
    (SpriteFactory.queued false).World.GetDcc 1 = none ∧
    (SpriteFactory.queued false).World.GetSprite 0 = none ∧
    (SpriteFactory.queued false).loadQueue 0 = some ⟨1, 2⟩ ∧
    (SpriteFactory.tryCreatingSprite Env.failing (SpriteFactory.queued false) 0).World.GetSprite 0
      = some ⟨none⟩ ∧
    (SpriteFactory.tryCreatingSprite Env.failing (SpriteFactory.queued false) 0).loadQueue 0
      = none := by
  refine ⟨rfl, rfl, rfl, rfl, rfl, rfl⟩

/-- A queued sprite that lacks the image path, the palette path or the
Palette is left alone: the call changes nothing. -/
theorem tryCreatingSprite_not_ready (env : Env) (t : SpriteFactory F) (id : EID)
    (entry : spriteLoadQueueEntry) (hq : t.loadQueue id = some entry)
    (h : t.World.GetFilePath entry.spriteImage = none ∨
      t.World.GetFilePath entry.spritePalette = none ∨
      t.World.GetPalette entry.spritePalette = none) :
    SpriteFactory.tryCreatingSprite env t id = t := by
  unfold SpriteFactory.tryCreatingSprite
  simp only [hq, Option.getD_some]
  rcases h with h | h | h
  · simp [h]
  · cases hi : t.World.GetFilePath entry.spriteImage <;> simp [h]
  · cases hi : t.World.GetFilePath entry.spriteImage <;>
      cases hp : t.World.GetFilePath entry.spritePalette <;> simp [h]

/-! ## Invariants of the two resolvers -/

/-- Either the entity has no FilePath and nothing changes, or the result is
the input world with some events appended and one FileType set on the entity. -/
theorem determineFileType_shape (env : Env) (w : World F) (id : EID) :
    (w.GetFilePath id = none ∧ FileTypeResolver.determineFileType env w id = w) ∨
    (∃ fp t evs, w.GetFilePath id = some fp ∧
      FileTypeResolver.determineFileType env w id
        = World.setFileType { w with events := evs } id ⟨t⟩) := by
  cases hfp : w.GetFilePath id with
  | none =>
    left
    simp [FileTypeResolver.determineFileType, hfp]
  | some fp =>
    right
    cases hm : env.mpqLoad fp.Path with
    | some a =>
      exact ⟨fp, FileTypeMPQ, w.events ++ [.mpqLoad fp.Path], rfl, by
        simp [FileTypeResolver.determineFileType, hfp, hm, World.emit]⟩
    | none =>
      cases hsw : extensionSwitch fp.Path (stringsToLower env (filepathExt env fp.Path)) with
      | some t =>
        exact ⟨fp, t, w.events ++ [.mpqLoad fp.Path], rfl, by
          simp [FileTypeResolver.determineFileType, hfp, hm, hsw, World.emit]⟩
      | none =>
        cases hst : env.lstat (env.clean fp.Path) with
        | none =>
          exact ⟨fp, FileTypeUnknown,
            (w.events ++ [.mpqLoad fp.Path]) ++ [.lstat (env.clean fp.Path)], rfl, by
            simp [FileTypeResolver.determineFileType, hfp, hm, hsw, hst, World.emit]⟩
        | some info =>
          by_cases hd : info.IsDir = true
          · exact ⟨fp, FileTypeDirectory,
              (w.events ++ [.mpqLoad fp.Path]) ++ [.lstat (env.clean fp.Path)], rfl, by
              simp [FileTypeResolver.determineFileType, hfp, hm, hsw, hst, hd, World.emit]⟩
          · exact ⟨fp, env.zeroFileType,
              (w.events ++ [.mpqLoad fp.Path]) ++ [.lstat (env.clean fp.Path)], rfl, by
              simp [FileTypeResolver.determineFileType, hfp, hm, hsw, hst, hd, World.emit]⟩

theorem determineFileType_filePaths (env : Env) (w : World F) (id : EID) :
    (FileTypeResolver.determineFileType env w id).comps.filePaths = w.comps.filePaths := by
  rcases determineFileType_shape env w id with ⟨_, h⟩ | ⟨fp, t, evs, _, h⟩
  · rw [h]
  · rw [h]
    rfl

theorem determineFileType_fileSources (env : Env) (w : World F) (id : EID) :
    (FileTypeResolver.determineFileType env w id).comps.fileSources = w.comps.fileSources := by
  rcases determineFileType_shape env w id with ⟨_, h⟩ | ⟨fp, t, evs, _, h⟩
  · rw [h]
  · rw [h]
    rfl

theorem determineFileType_nextEID (env : Env) (w : World F) (id : EID) :
    (FileTypeResolver.determineFileType env w id).nextEID = w.nextEID := by
  rcases determineFileType_shape env w id with ⟨_, h⟩ | ⟨fp, t, evs, _, h⟩
  · rw [h]
  · rw [h]
    rfl

theorem mpqLoads_emit_Errorf (w : World F) (fmt : String) (args : List String) :
    (w.emit (.Errorf fmt args)).mpqLoads = w.mpqLoads := by
  simp [World.mpqLoads, World.emit, List.filter_append, Event.isMpqLoad]

/-- On an entity of Unknown type `processSourceEntity` changes no component
and loads no archive, under every environment. -/
theorem processSourceEntity_unknown (env : Env) (w : World F) (id : EID)
    (h : w.GetFileType id = some ⟨FileTypeUnknown⟩) :
    (FileSourceResolver.processSourceEntity env w id).comps = w.comps ∧
    (FileSourceResolver.processSourceEntity env w id).mpqLoads = w.mpqLoads := by
  unfold FileSourceResolver.processSourceEntity
  cases hfp : w.GetFilePath id with
  | none => exact ⟨rfl, rfl⟩
  | some fp =>
    simp only [h]
    exact ⟨rfl, mpqLoads_emit_Errorf w _ _⟩

theorem laterCalls_unknown (envs : List Env) :
    ∀ (w : World F) (id : EID), w.GetFileType id = some ⟨FileTypeUnknown⟩ →
      (FileSourceResolver.laterCalls envs w id).comps = w.comps ∧
      (FileSourceResolver.laterCalls envs w id).mpqLoads = w.mpqLoads := by
  induction envs with
  | nil =>
    intro w id _
    exact ⟨rfl, rfl⟩
  | cons env envs ih =>
    intro w id h
    have h1 := processSourceEntity_unknown env w id h
    have h2 : (FileSourceResolver.processSourceEntity env w id).GetFileType id
        = some ⟨FileTypeUnknown⟩ := by
      simpa [World.GetFileType, h1.1] using h
    have h3 := ih (FileSourceResolver.processSourceEntity env w id) id h2
    simp only [FileSourceResolver.laterCalls, List.foldl_cons] at h3 ⊢
    exact ⟨h3.1.trans h1.1, h3.2.trans h1.2⟩

/-- C2 (counterexample): the file `readme` fails the archive probe, the
extension lookup and the stat, is typed Unknown, and then does match the
File Source Resolver's filter and is a member of its subscription. -/
theorem unknown_file_matches_typed_filter :
    Env.failing.mpqLoad "readme" = none ∧
    stringsToLower Env.failing (filepathExt Env.failing "readme") ∉ extensionKeys ∧
    Env.failing.lstat (Env.failing.clean "readme") = none ∧
    (FileTypeResolver.determineFileType Env.failing
        (World.oneFile "readme" : World Int) 0).GetFileType 0 = some ⟨FileTypeUnknown⟩ ∧
    filterMatches FileSourceResolver.fileSub
        (fun k => (FileTypeResolver.determineFileType Env.failing
          (World.oneFile "readme" : World Int) 0).has k 0) = true ∧
    0 ∈ (FileTypeResolver.determineFileType Env.failing
        (World.oneFile "readme" : World Int) 0).GetEntities FileSourceResolver.fileSub := by
  refine ⟨rfl, by decide, rfl, rfl, rfl, by decide⟩

/-- C2 (amended): an entity whose path fails the archive probe, the extension
lookup and the stat is typed Unknown.  If it carries no FileSource it matches
the File Source Resolver's filter, so it stays in the typed subscription; but
every later `processSourceEntity` on it, under any environment, changes no
component (in particular attaches no FileSource) and loads no archive. -/
theorem unknown_file_stays_unresolved (env : Env) (w : World F) (id : EID)
    (fp : FilePathComponent) (hfp : w.GetFilePath id = some fp)
    (hprobe : env.mpqLoad fp.Path = none)
    (hext : stringsToLower env (filepathExt env fp.Path) ∉ extensionKeys)
    (hstat : env.lstat (env.clean fp.Path) = none) :
    (FileTypeResolver.determineFileType env w id).GetFileType id = some ⟨FileTypeUnknown⟩ ∧
    (w.GetFileSource id = none →
      filterMatches FileSourceResolver.fileSub
        (fun k => (FileTypeResolver.determineFileType env w id).has k id) = true) ∧
    (∀ envs : List Env,
      (FileSourceResolver.laterCalls envs (FileTypeResolver.determineFileType env w id) id).comps
        = (FileTypeResolver.determineFileType env w id).comps ∧
      (FileSourceResolver.laterCalls envs (FileTypeResolver.determineFileType env w id) id).mpqLoads
        = (FileTypeResolver.determineFileType env w id).mpqLoads) := by
  have hU := determineFileType_all_fail env w id fp hfp hprobe hext hstat
  refine ⟨hU, ?_, ?_⟩
  · intro hsrc
    have h1 : (FileTypeResolver.determineFileType env w id).comps.filePaths id = some fp := by
      rw [determineFileType_filePaths]
      exact hfp
    have h2 : (FileTypeResolver.determineFileType env w id).comps.fileSources id = none := by
      rw [determineFileType_fileSources]
      exact hsrc
    have h3 : (FileTypeResolver.determineFileType env w id).comps.fileTypes id
        = some ⟨FileTypeUnknown⟩ := hU
    simp [filterMatches, FileSourceResolver.fileSub, World.has, h1, h2, h3]
  · intro envs
    exact laterCalls_unknown envs _ id hU

/-- Witness for the amended C2, at the file `readme` and two later ticks. -/
theorem unknown_file_stays_unresolved_witness :
    (FileSourceResolver.laterCalls [Env.withDataDir, Env.failing]
      (FileTypeResolver.determineFileType Env.failing (World.oneFile "readme" : World Int) 0)
      0).comps
      = (FileTypeResolver.determineFileType Env.failing
          (World.oneFile "readme" : World Int) 0).comps :=
  ((unknown_file_stays_unresolved Env.failing (World.oneFile "readme") 0 ⟨"readme"⟩ rfl rfl
    (by decide) rfl).2.2 [Env.withDataDir, Env.failing]).1

/-- C5 (counterexample): a Directory-typed entity whose path does not exist
on the filesystem, so that nothing can be opened there.  `processSourceEntity`
does not reset its FileType to Unknown: it keeps Directory and attaches a
FileSource wrapping the path. -/
theorem directory_source_is_never_opened :
    Env.failing.lstat (Env.failing.clean "missing") = none ∧
    (World.oneTypedFile "missing" FileTypeDirectory : World Int).GetFileSource 0 = none ∧
    (FileSourceResolver.processSourceEntity Env.failing
        (World.oneTypedFile "missing" FileTypeDirectory : World Int) 0).GetFileType 0
      = some ⟨FileTypeDirectory⟩ ∧
    (FileSourceResolver.processSourceEntity Env.failing
        (World.oneTypedFile "missing" FileTypeDirectory : World Int) 0).GetFileSource 0
      = some ⟨some (.fsSource "missing")⟩ := by
  refine ⟨rfl, rfl, rfl, rfl⟩

/-- C5 (amended): for an entity with a FilePath and a FileType.  If the type
is MPQ and the archive fails to load, `processSourceEntity` resets the
FileType to Unknown and attaches no FileSource, and every later call on that
entity, under any environment, changes no component and loads no archive.
If the type is Directory nothing is opened and nothing can fail: under every
environment the FileType stays as it is and a FileSource wrapping the path is
attached. -/
theorem processSourceEntity_mpq_open_failure (env : Env) (w : World F) (id : EID)
    (fp : FilePathComponent) (ft : FileTypeComponent)
    (hfp : w.GetFilePath id = some fp) (hft : w.GetFileType id = some ft) :
    (ft.Typ = FileTypeMPQ → FileSourceResolver.makeMpqSource env fp.Path = none →
      (FileSourceResolver.processSourceEntity env w id).GetFileType id
        = some ⟨FileTypeUnknown⟩ ∧
      (FileSourceResolver.processSourceEntity env w id).comps.fileSources
        = w.comps.fileSources ∧
      (∀ envs : List Env,
        (FileSourceResolver.laterCalls envs (FileSourceResolver.processSourceEntity env w id)
            id).comps = (FileSourceResolver.processSourceEntity env w id).comps ∧
        (FileSourceResolver.laterCalls envs (FileSourceResolver.processSourceEntity env w id)
            id).mpqLoads = (FileSourceResolver.processSourceEntity env w id).mpqLoads)) ∧
    (ft.Typ = FileTypeDirectory →
      (FileSourceResolver.processSourceEntity env w id).GetFileType id = some ft ∧
      (FileSourceResolver.processSourceEntity env w id).GetFileSource id
        = some ⟨some (.fsSource fp.Path)⟩ ∧
      (FileSourceResolver.processSourceEntity env w id).mpqLoads = w.mpqLoads) := by
  constructor
  · intro ht hopen
    have key : (FileSourceResolver.processSourceEntity env w id).GetFileType id
          = some ⟨FileTypeUnknown⟩ ∧
        (FileSourceResolver.processSourceEntity env w id).comps.fileSources
          = w.comps.fileSources := by
      simp [FileSourceResolver.processSourceEntity, hfp, hft, ht, hopen]
      rfl
    exact ⟨key.1, key.2, fun envs => laterCalls_unknown envs _ id key.1⟩
  · intro ht
    have hres : FileSourceResolver.processSourceEntity env w id
        = (w.setFileSource id ⟨some (.fsSource fp.Path)⟩).emit
            (.Infof "using FILESYSTEM source for `%s`" [fp.Path]) := by
      simp [FileSourceResolver.processSourceEntity, hfp, hft, ht,
        FileSourceResolver.makeFileSystemSource]
    rw [hres]
    refine ⟨hft, ?_, ?_⟩
    · simp [World.GetFileSource, World.emit, World.setFileSource]
    · simp [World.mpqLoads, World.emit, World.setFileSource, List.filter_append,
        Event.isMpqLoad]

/-- Witness for the amended C5: an entity typed MPQ whose archive cannot be
loaded becomes Unknown, and an entity typed Directory gets its source. -/
theorem processSourceEntity_mpq_open_failure_witness :
    (FileSourceResolver.processSourceEntity Env.failing
        (World.oneTypedFile "d2data.mpq" FileTypeMPQ : World Int) 0).GetFileType 0
      = some ⟨FileTypeUnknown⟩ ∧
    (FileSourceResolver.processSourceEntity Env.withDataDir
        (World.oneTypedFile "data" FileTypeDirectory : World Int) 0).GetFileSource 0
      = some ⟨some (.fsSource "data")⟩ :=
  ⟨((processSourceEntity_mpq_open_failure Env.failing
      (World.oneTypedFile "d2data.mpq" FileTypeMPQ) 0 ⟨"d2data.mpq"⟩ ⟨FileTypeMPQ⟩ rfl rfl).1
      rfl rfl).1,
    ((processSourceEntity_mpq_open_failure Env.withDataDir
      (World.oneTypedFile "data" FileTypeDirectory) 0 ⟨"data"⟩ ⟨FileTypeDirectory⟩ rfl rfl).2
      rfl).2.1⟩

/-! ## Queueing a sprite -/

theorem three_fresh (n : Nat) :
    n ≠ n + 1 ∧ n ≠ n + 2 ∧ n + 1 ≠ n + 2 ∧ n ≤ n + 1 ∧ n ≤ n + 2 ∧ n < n + 3 ∧
      n + 1 < n + 3 ∧ n + 2 < n + 3 := by
  omega

/-- C7: `Sprite` issues three new pairwise-distinct entity IDs (the next
three of the store, none issued before), sets Position (x, y) on the sprite
entity, FilePath imgPath on the image entity and FilePath palPath on the
palette entity, records `loadQueue[spriteID] = (imageID, paletteID)`, returns
the sprite entity's ID and attaches no Sprite or Texture component.  As no
queue key is an unissued ID, every existing load-queue entry is unchanged. -/
theorem Sprite_enqueues (t : SpriteFactory F) (x y : F) (imgPath palPath : String)
    (hfresh : ∀ e, t.World.nextEID ≤ e → t.loadQueue e = none) :
    ∃ imgID palID : EID,
      (t.Sprite x y imgPath palPath).1 ≠ imgID ∧
      (t.Sprite x y imgPath palPath).1 ≠ palID ∧ imgID ≠ palID ∧
      t.World.nextEID ≤ (t.Sprite x y imgPath palPath).1 ∧
      t.World.nextEID ≤ imgID ∧ t.World.nextEID ≤ palID ∧
      (t.Sprite x y imgPath palPath).1 < (t.Sprite x y imgPath palPath).2.World.nextEID ∧
      imgID < (t.Sprite x y imgPath palPath).2.World.nextEID ∧
      palID < (t.Sprite x y imgPath palPath).2.World.nextEID ∧
      (t.Sprite x y imgPath palPath).2.World.nextEID = t.World.nextEID + 3 ∧
      (t.Sprite x y imgPath palPath).2.World.GetPosition (t.Sprite x y imgPath palPath).1
        = some ⟨x, y⟩ ∧
      (t.Sprite x y imgPath palPath).2.World.GetFilePath imgID = some ⟨imgPath⟩ ∧
      (t.Sprite x y imgPath palPath).2.World.GetFilePath palID = some ⟨palPath⟩ ∧
      (t.Sprite x y imgPath palPath).2.loadQueue (t.Sprite x y imgPath palPath).1
        = some ⟨imgID, palID⟩ ∧
      (t.Sprite x y imgPath palPath).2.World.comps.sprites = t.World.comps.sprites ∧
      (t.Sprite x y imgPath palPath).2.World.comps.textures = t.World.comps.textures ∧
      (∀ e, (t.loadQueue e).isSome →
        (t.Sprite x y imgPath palPath).2.loadQueue e = t.loadQueue e) := by
  have hid : (t.Sprite x y imgPath palPath).1 = t.World.nextEID := rfl
  have hnext : (t.Sprite x y imgPath palPath).2.World.nextEID = t.World.nextEID + 3 := rfl
  have hq : (t.Sprite x y imgPath palPath).2.loadQueue
      = Function.update t.loadQueue t.World.nextEID
          (some ⟨t.World.nextEID + 1, t.World.nextEID + 2⟩) := rfl
  have himg : (t.Sprite x y imgPath palPath).2.World.GetFilePath (t.World.nextEID + 1)
      = some ⟨imgPath⟩ := by
    simp [SpriteFactory.Sprite, World.NewEntity, World.setPosition, World.setFilePath,
      World.GetFilePath, Function.update_apply]
  have hpal : (t.Sprite x y imgPath palPath).2.World.GetFilePath (t.World.nextEID + 2)
      = some ⟨palPath⟩ := by
    simp [SpriteFactory.Sprite, World.NewEntity, World.setPosition, World.setFilePath,
      World.GetFilePath, Function.update_apply]
  have hpos : (t.Sprite x y imgPath palPath).2.World.GetPosition t.World.nextEID
      = some ⟨x, y⟩ := by
    simp [SpriteFactory.Sprite, World.NewEntity, World.setPosition, World.setFilePath,
      World.GetPosition, Function.update_apply]
  refine ⟨t.World.nextEID + 1, t.World.nextEID + 2, ?_⟩
  rw [hid, hnext, hq]
  obtain ⟨a1, a2, a3, a4, a5, a6, a7, a8⟩ := three_fresh t.World.nextEID
  refine ⟨a1, a2, a3, le_refl _, a4, a5, a6, a7, a8, rfl, hpos, himg, hpal,
    Function.update_same _ _ _, rfl, rfl, ?_⟩
  intro e he
  have hne : e ≠ t.World.nextEID := by
    intro h
    rw [h, hfresh _ (le_refl _)] at he
    simp at he
  rw [Function.update_noteq hne]

/-- Witness for C7: queueing one more sprite in a factory that already has a
queued sprite returns the next entity ID. -/
theorem Sprite_enqueues_witness :
    ∃ imgID palID : EID,
      ((SpriteFactory.queued true).Sprite 5 6 "img" "pal").1 ≠ imgID ∧
      ((SpriteFactory.queued true).Sprite 5 6 "img" "pal").1 ≠ palID ∧ imgID ≠ palID ∧
      (SpriteFactory.queued true).World.nextEID
        ≤ ((SpriteFactory.queued true).Sprite 5 6 "img" "pal").1 ∧
      (SpriteFactory.queued true).World.nextEID ≤ imgID ∧
      (SpriteFactory.queued true).World.nextEID ≤ palID ∧
      ((SpriteFactory.queued true).Sprite 5 6 "img" "pal").1
        < ((SpriteFactory.queued true).Sprite 5 6 "img" "pal").2.World.nextEID ∧
      imgID < ((SpriteFactory.queued true).Sprite 5 6 "img" "pal").2.World.nextEID ∧
      palID < ((SpriteFactory.queued true).Sprite 5 6 "img" "pal").2.World.nextEID ∧
      ((SpriteFactory.queued true).Sprite 5 6 "img" "pal").2.World.nextEID
        = (SpriteFactory.queued true).World.nextEID + 3 ∧
      ((SpriteFactory.queued true).Sprite 5 6 "img" "pal").2.World.GetPosition
          ((SpriteFactory.queued true).Sprite 5 6 "img" "pal").1 = some ⟨5, 6⟩ ∧
      ((SpriteFactory.queued true).Sprite 5 6 "img" "pal").2.World.GetFilePath imgID
        = some ⟨"img"⟩ ∧
      ((SpriteFactory.queued true).Sprite 5 6 "img" "pal").2.World.GetFilePath palID
        = some ⟨"pal"⟩ ∧
      ((SpriteFactory.queued true).Sprite 5 6 "img" "pal").2.loadQueue
          ((SpriteFactory.queued true).Sprite 5 6 "img" "pal").1 = some ⟨imgID, palID⟩ ∧
      ((SpriteFactory.queued true).Sprite 5 6 "img" "pal").2.World.comps.sprites
        = (SpriteFactory.queued true).World.comps.sprites ∧
      ((SpriteFactory.queued true).Sprite 5 6 "img" "pal").2.World.comps.textures
        = (SpriteFactory.queued true).World.comps.textures ∧
      (∀ e, ((SpriteFactory.queued true).loadQueue e).isSome →
        ((SpriteFactory.queued true).Sprite 5 6 "img" "pal").2.loadQueue e
          = (SpriteFactory.queued true).loadQueue e) :=
  Sprite_enqueues (SpriteFactory.queued true) 5 6 "img" "pal" (by
    intro e he
    have h3 : (SpriteFactory.queued true).World.nextEID = 3 := rfl
    rw [h3] at he
    have hne : e ≠ 0 := by
      intro h
      subst h
      exact absurd he (by decide)
    simp [SpriteFactory.queued, Function.update_noteq hne])

/-! ## Load progress -/

theorem roundHalfEven_ge (a b : Nat) : a / b ≤ roundHalfEven a b := by
  unfold roundHalfEven
  simp only []
  split_ifs <;> omega

theorem roundHalfEven_one (a : Nat) : roundHalfEven a 1 = a := by
  unfold roundHalfEven
  simp only [Nat.div_one, Nat.mod_one]
  rfl

theorem pow_log2Fuel_le : ∀ fuel n : Nat, 1 ≤ n → 2 ^ log2Fuel fuel n ≤ n := by
  intro fuel
  induction fuel with
  | zero =>
    intro n hn
    simpa [log2Fuel] using hn
  | succ fuel ih =>
    intro n hn
    unfold log2Fuel
    split_ifs with h2
    · simpa using hn
    · have h3 : 1 ≤ n / 2 := by omega
      have h4 := ih (n / 2) h3
      rw [pow_succ]
      omega

/-- The conversion of a positive length has a non-zero mantissa. -/
theorem scaledMantissa_ofLen_ne_zero (l : Nat) (hl : 0 < l) :
    scaledMantissa l 1 (lastBitExp l 1) ≠ 0 := by
  have hle : lastBitExp l 1 ≤ (natLog2 l : Int) := by
    have h1 : (1 : Nat) ≤ l := hl
    unfold lastBitExp floorLog2
    rw [if_pos h1, Nat.div_one]
    omega
  unfold scaledMantissa
  split_ifs with h0
  · have h1 : (lastBitExp l 1).toNat ≤ natLog2 l := by omega
    have h2 : 2 ^ (lastBitExp l 1).toNat ≤ l :=
      le_trans (Nat.pow_le_pow_right (by decide) h1) (pow_log2Fuel_le l l hl)
    have h3 := roundHalfEven_ge l (1 * 2 ^ (lastBitExp l 1).toNat)
    have h4 : 0 < l / (1 * 2 ^ (lastBitExp l 1).toNat) := by
      rw [one_mul]
      exact Nat.div_pos h2 (by positivity)
    omega
  · rw [roundHalfEven_one]
    have : 0 < 2 ^ (-lastBitExp l 1).toNat := by positivity
    exact Nat.ne_of_gt (Nat.mul_pos hl this)

theorem ofLen_pos (l : Nat) (hl : 0 < l) :
    NonnegFloat64.ofLen l = .inf ∨
      ∃ m e, NonnegFloat64.ofLen l = .finite m e ∧ m ≠ 0 := by
  have hm := scaledMantissa_ofLen_ne_zero l hl
  unfold NonnegFloat64.ofLen roundFloat64
  rw [if_neg (Nat.ne_of_gt hl)]
  split_ifs with h1
  · left
    rfl
  · right
    exact ⟨_, _, rfl, hm⟩

/-- Zero divided by the conversion of a positive length is zero. -/
theorem zero_div_ofLen (l : Nat) (hl : 0 < l) :
    (NonnegFloat64.finite 0 0).div (NonnegFloat64.ofLen l) = .finite 0 0 := by
  rcases ofLen_pos l hl with h | ⟨m, e, h, hm⟩
  · rw [h]
    rfl
  · rw [h]
    simp [NonnegFloat64.div, hm, fraction, roundFloat64]

/-- C8 (counterexample): with stage sizes 0, 0, 1 and 1 the exact value of
`1 - (untyped + unhandled + unparsed) / 3 / loaded` is 2/3, but
`updateLoadProgress` stores the float64 `6004799503160662 * 2 ^ (-53)`
(printed 0.6666666666666667), which is not 2/3. -/
theorem updateLoadProgress_not_exact :
    (LoadingScene.oneUnparsed.World.GetEntities LoadingScene.stage1).length = 0 ∧
    (LoadingScene.oneUnparsed.World.GetEntities LoadingScene.stage2).length = 0 ∧
    (LoadingScene.oneUnparsed.World.GetEntities LoadingScene.stage3).length = 1 ∧
    (LoadingScene.oneUnparsed.World.GetEntities LoadingScene.stage4).length = 1 ∧
    LoadingScene.oneUnparsed.updateLoadProgress.progress
      = .finite 6004799503160662 (-53) ∧
    LoadingScene.oneUnparsed.updateLoadProgress.progress.toRat
      ≠ some (1 - (((0 : Nat) : ℚ) + ((0 : Nat) : ℚ) + ((1 : Nat) : ℚ)) / 3 / ((1 : Nat) : ℚ)) := by
  have hp : LoadingScene.oneUnparsed.updateLoadProgress.progress
      = .finite 6004799503160662 (-53) := by decide
  refine ⟨by decide, by decide, by decide, by decide, hp, ?_⟩
  rw [hp]
  simp only [Float64.toRat, ne_eq, Option.some.injEq]
  norm_num

/-- C8 (amended): when the four stage subscriptions hold `untyped`,
`unhandled`, `unparsed` and `loaded > 0` entities, `updateLoadProgress` sets
progress to the float64 evaluation of
`1 - (untyped + unhandled + unparsed) / 3 / loaded`, every conversion and
operation rounded to the nearest float64; whenever the first three sizes are
zero the progress is exactly 1. -/
theorem updateLoadProgress_float (s : LoadingScene F) (untyped unhandled unparsed loaded : Nat)
    (h1 : (s.World.GetEntities LoadingScene.stage1).length = untyped)
    (h2 : (s.World.GetEntities LoadingScene.stage2).length = unhandled)
    (h3 : (s.World.GetEntities LoadingScene.stage3).length = unparsed)
    (h4 : (s.World.GetEntities LoadingScene.stage4).length = loaded)
    (hpos : 0 < loaded) :
    s.updateLoadProgress.progress
      = Float64.oneMinus
          (((((NonnegFloat64.ofLen untyped).add (NonnegFloat64.ofLen unhandled)).add
            (NonnegFloat64.ofLen unparsed)).div (NonnegFloat64.ofLen 3)).div
            (NonnegFloat64.ofLen loaded)) ∧
    (untyped = 0 → unhandled = 0 → unparsed = 0 →
      s.updateLoadProgress.progress.toRat = some 1) := by
  have hmain : s.updateLoadProgress.progress
      = Float64.oneMinus
          (((((NonnegFloat64.ofLen untyped).add (NonnegFloat64.ofLen unhandled)).add
            (NonnegFloat64.ofLen unparsed)).div (NonnegFloat64.ofLen 3)).div
            (NonnegFloat64.ofLen loaded)) := by
    simp only [LoadingScene.updateLoadProgress, h1, h2, h3, h4]
  refine ⟨hmain, ?_⟩
  intro hu hh hp
  have h0 : (((NonnegFloat64.ofLen 0).add (NonnegFloat64.ofLen 0)).add
      (NonnegFloat64.ofLen 0)).div (NonnegFloat64.ofLen 3) = .finite 0 0 := by decide
  have hone : Float64.oneMinus (.finite 0 0) = .finite (2 ^ 52) (-52) := by decide
  rw [hmain, hu, hh, hp, h0, zero_div_ofLen loaded hpos, hone]
  simp only [Float64.toRat, Option.some.injEq]
  norm_num

/-- Witness for the amended C8: no entity in the first three stages and four
loaded ones give progress 1. -/
theorem updateLoadProgress_float_witness :
    LoadingScene.fourLoaded.updateLoadProgress.progress.toRat = some 1 :=
  (updateLoadProgress_float LoadingScene.fourLoaded 0 0 0 4 (by decide) (by decide) (by decide)
    (by decide) (by decide)).2 rfl rfl rfl

/-! ## One pass of the file type resolver -/

theorem filesToCheck_matches (w : World F) (e : EID) :
    filterMatches FileTypeResolver.filesToCheck (fun k => w.has k e)
      = ((w.GetFilePath e).isSome && !(w.GetFileType e).isSome) := by
  simp [filterMatches, FileTypeResolver.filesToCheck, World.has, World.GetFilePath,
    World.GetFileType]

theorem determineFileType_fileType_mono (env : Env) (w : World F) (id e : EID)
    (h : (w.GetFileType e).isSome = true) :
    ((FileTypeResolver.determineFileType env w id).GetFileType e).isSome = true := by
  rcases determineFileType_shape env w id with ⟨_, hw⟩ | ⟨fp, t, evs, _, hw⟩
  · rw [hw]
    exact h
  · rw [hw, getFileType_setFileType]
    by_cases hid : e = id
    · simp [hid]
    · simpa [hid] using h

theorem determineFileType_fileType_self (env : Env) (w : World F) (id : EID)
    (h : (w.GetFilePath id).isSome = true) :
    ((FileTypeResolver.determineFileType env w id).GetFileType id).isSome = true := by
  rcases determineFileType_shape env w id with ⟨hnone, _⟩ | ⟨fp, t, evs, _, hw⟩
  · rw [hnone] at h
    simp at h
  · rw [hw, getFileType_setFileType]
    simp

theorem determineFileType_foldl (env : Env) (l : List EID) :
    ∀ w : World F,
      (l.foldl (fun w eid => FileTypeResolver.determineFileType env w eid) w).nextEID
        = w.nextEID ∧
      (l.foldl (fun w eid => FileTypeResolver.determineFileType env w eid) w).comps.filePaths
        = w.comps.filePaths ∧
      (∀ e, (w.GetFileType e).isSome = true →
        ((l.foldl (fun w eid => FileTypeResolver.determineFileType env w eid) w).GetFileType
          e).isSome = true) ∧
      (∀ e ∈ l, (w.GetFilePath e).isSome = true →
        ((l.foldl (fun w eid => FileTypeResolver.determineFileType env w eid) w).GetFileType
          e).isSome = true) := by
  induction l with
  | nil =>
    intro w
    exact ⟨rfl, rfl, fun _ h => h, fun e he => absurd he (List.not_mem_nil e)⟩
  | cons a l ih =>
    intro w
    obtain ⟨i1, i2, i3, i4⟩ := ih (FileTypeResolver.determineFileType env w a)
    simp only [List.foldl_cons]
    refine ⟨i1.trans (determineFileType_nextEID env w a),
      i2.trans (determineFileType_filePaths env w a), ?_, ?_⟩
    · intro e he
      exact i3 e (determineFileType_fileType_mono env w a e he)
    · intro e he hfp
      rcases List.mem_cons.mp he with hea | hel
      · subst hea
        exact i3 e (determineFileType_fileType_self env w e hfp)
      · apply i4 e hel
        simpa [World.GetFilePath, determineFileType_filePaths] using hfp

/-- C10: for every entity in the resolver's subscription (has FilePath, lacks
FileType), one `Update` leaves the entity with a FileType component whatever
the probes answer, so the entity no longer matches the resolver's filter, and
the subscription (the set of files still to check) is empty after the pass. -/
theorem FileTypeResolver_Update_types_all (env : Env) (w : World F) (e : EID)
    (he : e ∈ w.GetEntities FileTypeResolver.filesToCheck) :
    (∃ ft, (FileTypeResolver.Update env w).GetFileType e = some ft) ∧
    filterMatches FileTypeResolver.filesToCheck
      (fun k => (FileTypeResolver.Update env w).has k e) = false ∧
    (FileTypeResolver.Update env w).GetEntities FileTypeResolver.filesToCheck = [] := by
  obtain ⟨i1, i2, i3, i4⟩ :=
    determineFileType_foldl env (w.GetEntities FileTypeResolver.filesToCheck) w
  have hset : ∀ x ∈ w.GetEntities FileTypeResolver.filesToCheck,
      ((FileTypeResolver.Update env w).GetFileType x).isSome = true := by
    intro x hx
    apply i4 x hx
    have hm := (List.mem_filter.mp hx).2
    rw [filesToCheck_matches] at hm
    simp only [Bool.and_eq_true] at hm
    exact hm.1
  refine ⟨Option.isSome_iff_exists.mp (hset e he), ?_, ?_⟩
  · rw [filesToCheck_matches, hset e he]
    simp
  · unfold World.GetEntities
    rw [List.filter_eq_nil_iff]
    intro x hx
    rw [filesToCheck_matches]
    have hx2 : x ∈ List.range w.nextEID := by
      have hn : (FileTypeResolver.Update env w).nextEID = w.nextEID := i1
      rw [hn] at hx
      exact hx
    by_cases hm : filterMatches FileTypeResolver.filesToCheck (fun k => w.has k x) = true
    · have hin : x ∈ w.GetEntities FileTypeResolver.filesToCheck :=
        List.mem_filter.mpr ⟨hx2, hm⟩
      rw [hset x hin]
      simp
    · rw [filesToCheck_matches] at hm
      have hfp : (FileTypeResolver.Update env w).GetFilePath x = w.GetFilePath x := by
        show (FileTypeResolver.Update env w).comps.filePaths x = w.comps.filePaths x
        have hp : (FileTypeResolver.Update env w).comps.filePaths = w.comps.filePaths := i2
        rw [hp]
      rw [hfp]
      cases hpath : (w.GetFilePath x).isSome
      · simp
      · rw [hpath] at hm
        have hty : (w.GetFileType x).isSome = true := by
          cases hh : (w.GetFileType x).isSome
          · rw [hh] at hm
            simp at hm
          · rfl
        have := i3 x hty
        have hty2 : ((FileTypeResolver.Update env w).GetFileType x).isSome = true := this
        rw [hty2]
        simp

/-- Witness for C10: a world with one untyped file entity. -/
theorem FileTypeResolver_Update_types_all_witness :
    (∃ ft, (FileTypeResolver.Update Env.failing
        (World.oneFile "intro.wav" : World Int)).GetFileType 0 = some ft) ∧
    filterMatches FileTypeResolver.filesToCheck
      (fun k => (FileTypeResolver.Update Env.failing
        (World.oneFile "intro.wav" : World Int)).has k 0) = false ∧
    (FileTypeResolver.Update Env.failing
        (World.oneFile "intro.wav" : World Int)).GetEntities FileTypeResolver.filesToCheck
      = [] :=
  FileTypeResolver_Update_types_all Env.failing (World.oneFile "intro.wav") 0 (by decide)

/-! ## Movement -/

section Movement

variable [Add F]

theorem move_velocities (w : World F) (id : EID) :
    (MovementSystem.move w id).comps.velocities = w.comps.velocities := by
  unfold MovementSystem.move
  split <;> rfl

theorem move_position_other (w : World F) (id e : EID) (h : e ≠ id) :
    (MovementSystem.move w id).GetPosition e = w.GetPosition e := by
  unfold MovementSystem.move
  split
  · simp [World.GetPosition, World.setPosition, Function.update_noteq h]
  · rfl

theorem move_position_self (w : World F) (id : EID) (p : PositionComponent F)
    (v : VelocityComponent F) (hp : w.GetPosition id = some p)
    (hv : w.GetVelocity id = some v) :
    (MovementSystem.move w id).GetPosition id = some ⟨p.X + v.X, p.Y + v.Y⟩ := by
  unfold MovementSystem.move
  rw [hp, hv]
  simp [World.GetPosition, World.setPosition]

theorem move_foldl (e : EID) (v : VelocityComponent F) (l : List EID) :
    ∀ (w : World F) (p : PositionComponent F), l.Nodup → w.GetVelocity e = some v →
      w.GetPosition e = some p →
      (l.foldl (fun w eid => MovementSystem.move w eid) w).GetPosition e
        = if e ∈ l then some ⟨p.X + v.X, p.Y + v.Y⟩ else some p := by
  induction l with
  | nil =>
    intro w p _ _ hp
    simpa using hp
  | cons a l ih =>
    intro w p hnd hv hp
    have hnd2 := (List.nodup_cons.mp hnd).2
    have hnotin := (List.nodup_cons.mp hnd).1
    have hv2 : (MovementSystem.move w a).GetVelocity e = some v := by
      show (MovementSystem.move w a).comps.velocities e = some v
      rw [move_velocities]
      exact hv
    simp only [List.foldl_cons]
    by_cases hae : e = a
    · subst hae
      have hp2 := move_position_self w e p v hp hv
      rw [ih (MovementSystem.move w e) _ hnd2 hv2 hp2]
      simp [hnotin]
    · have hp2 : (MovementSystem.move w a).GetPosition e = some p := by
        rw [move_position_other w a e hae]
        exact hp
      rw [ih (MovementSystem.move w a) p hnd2 hv2 hp2]
      simp [hae]

/-- C9: in a world whose only system is the active movement system, one
scheduler tick leaves every issued entity that holds Position p and Velocity
v with Position p + v componentwise, whatever elapsed duration is passed to
the tick. -/
theorem movement_tick (w : World F) (e : EID) (p : PositionComponent F)
    (v : VelocityComponent F) (dt : Int) (he : e < w.nextEID)
    (hp : w.GetPosition e = some p) (hv : w.GetVelocity e = some v) :
    (World.Update [⟨true, MovementSystem.Update⟩] w dt).GetPosition e
      = some ⟨p.X + v.X, p.Y + v.Y⟩ := by
  have hstep : World.Update [⟨true, MovementSystem.Update⟩] w dt
      = MovementSystem.Update { w with TimeDelta := dt } := by
    simp [World.Update]
  rw [hstep]
  unfold MovementSystem.Update
  have hnd : (World.GetEntities { w with TimeDelta := dt } MovementSystem.filter).Nodup :=
    (List.nodup_range _).filter _
  have hmem : e ∈ World.GetEntities { w with TimeDelta := dt } MovementSystem.filter := by
    apply List.mem_filter.mpr
    refine ⟨List.mem_range.mpr he, ?_⟩
    have h1 : w.comps.positions e = some p := hp
    have h2 : w.comps.velocities e = some v := hv
    simp [filterMatches, MovementSystem.filter, World.has, h1, h2]
  rw [move_foldl e v _ { w with TimeDelta := dt } p hnd hv hp]
  simp [hmem]

end Movement

/-- Witness for C9: Position (10, 10) and Velocity (1, -1) give (11, 9) after
one tick of one second. -/
theorem movement_tick_witness :
    (World.Update [⟨true, MovementSystem.Update⟩] World.oneMover 1000000000).GetPosition 0
      = some ⟨11, 9⟩ :=
  movement_tick World.oneMover 0 ⟨10, 10⟩ ⟨1, -1⟩ 1000000000 (by decide) rfl rfl

/-! ## Time scale -/

/-- What `Process` computes on an active system: the elapsed duration times
the truncated scale, in int64. -/
theorem Process_active (outOfRange : ℚ → Int) (t : TimeScaleSystem F) (h : t.Active = true) :
    (TimeScaleSystem.Process outOfRange t).World.TimeDelta
      = wrapInt64 (t.World.TimeDelta * timeDuration outOfRange t.scale) := by
  simp [TimeScaleSystem.Process, h]

/-- When the truncated scale fits int64, the conversion is the truncation. -/
theorem timeDuration_of_fits (outOfRange : ℚ → Int) (f : ℚ)
    (h : -2 ^ 63 ≤ Int.tdiv f.num f.den ∧ Int.tdiv f.num f.den < 2 ^ 63) :
    timeDuration outOfRange f = Int.tdiv f.num f.den := by
  unfold timeDuration
  exact if_pos h

/-- With the default scale installed by `Init`, `Process` leaves an elapsed
duration within int64 unchanged. -/
theorem Process_default_scale (outOfRange : ℚ → Int) (t : TimeScaleSystem F)
    (world : World F) (h : t.Active = true) (hlo : -2 ^ 63 ≤ world.TimeDelta)
    (hhi : world.TimeDelta < 2 ^ 63) :
    (TimeScaleSystem.Process outOfRange (t.Init world)).World.TimeDelta = world.TimeDelta := by
  have ha : (t.Init world).Active = true := h
  rw [Process_active outOfRange _ ha]
  have hd : timeDuration outOfRange (t.Init world).scale = 1 :=
    timeDuration_of_fits outOfRange defaultScale (by decide)
  rw [hd]
  show wrapInt64 (world.TimeDelta * 1) = world.TimeDelta
  unfold wrapInt64
  omega

/-- C11 (evaluation at the failing input): an active system with scale 0.5
and an elapsed duration of one second.  The claim's scaled duration `s * d`
is half a second, but `Process` truncates the scale to 0 before multiplying
and sets the elapsed duration to 0. -/
theorem Process_half_scale_stops_time :
    TimeScaleSystem.halfSpeed.Active = true ∧
    TimeScaleSystem.halfSpeed.scale * (TimeScaleSystem.halfSpeed.World.TimeDelta : ℚ)
      = 500000000 ∧
    (∀ outOfRange : ℚ → Int,
      (TimeScaleSystem.Process outOfRange TimeScaleSystem.halfSpeed).World.TimeDelta = 0) := by
  refine ⟨rfl, ?_, ?_⟩
  · show mkRat 1 2 * ((1000000000 : Int) : ℚ) = 500000000
    norm_num [mkRat]
  · intro outOfRange
    rw [Process_active outOfRange TimeScaleSystem.halfSpeed rfl]
    have hd : timeDuration outOfRange TimeScaleSystem.halfSpeed.scale = 0 :=
      timeDuration_of_fits outOfRange (mkRat 1 2) (by decide)
    rw [hd]
    decide

/-! ## Entities the file source resolver leaves alone -/

/-- C12: when the entity's FileType is neither MPQ nor Directory, or the
entity lacks a FilePath or a FileType, `processSourceEntity` changes no
component at all: it attaches no FileSource and leaves the entity's FilePath
and FileType as they are; and it loads no archive. -/
theorem processSourceEntity_leaves_other_types (env : Env) (w : World F) (id : EID)
    (h : w.GetFilePath id = none ∨ w.GetFileType id = none ∨
      ∃ ft, w.GetFileType id = some ft ∧ ft.Typ ≠ FileTypeMPQ ∧ ft.Typ ≠ FileTypeDirectory) :
    (FileSourceResolver.processSourceEntity env w id).comps = w.comps ∧
    (FileSourceResolver.processSourceEntity env w id).GetFileSource id = w.GetFileSource id ∧
    (FileSourceResolver.processSourceEntity env w id).GetFilePath id = w.GetFilePath id ∧
    (FileSourceResolver.processSourceEntity env w id).GetFileType id = w.GetFileType id ∧
    (FileSourceResolver.processSourceEntity env w id).mpqLoads = w.mpqLoads := by
  have key : (FileSourceResolver.processSourceEntity env w id).comps = w.comps ∧
      (FileSourceResolver.processSourceEntity env w id).mpqLoads = w.mpqLoads := by
    rcases h with h | h | ⟨ft, hft, hm, hd⟩
    · simp [FileSourceResolver.processSourceEntity, h]
    · unfold FileSourceResolver.processSourceEntity
      cases hfp : w.GetFilePath id with
      | none => exact ⟨rfl, rfl⟩
      | some fp => simp [h]
    · obtain ⟨ty⟩ := ft
      cases ty
      case FileTypeUnknown => exact processSourceEntity_unknown env w id hft
      case FileTypeMPQ => exact absurd rfl hm
      case FileTypeDirectory => exact absurd rfl hd
      all_goals
        unfold FileSourceResolver.processSourceEntity
        cases hfp : w.GetFilePath id with
        | none => exact ⟨rfl, rfl⟩
        | some fp => simp [hft]
  refine ⟨key.1, ?_, ?_, ?_, key.2⟩
  · simp [World.GetFileSource, key.1]
  · simp [World.GetFilePath, key.1]
  · simp [World.GetFileType, key.1]

/-- Witness for C12: an entity typed WAV is left as it is. -/
theorem processSourceEntity_leaves_other_types_witness :
    (FileSourceResolver.processSourceEntity Env.failing
        (World.oneTypedFile "intro.wav" FileTypeWAV : World Int) 0).comps
      = (World.oneTypedFile "intro.wav" FileTypeWAV : World Int).comps :=
  (processSourceEntity_leaves_other_types Env.failing (World.oneTypedFile "intro.wav" FileTypeWAV)
    0 (Or.inr (Or.inr ⟨⟨FileTypeWAV⟩, rfl, by decide, by decide⟩))).1

/-! ## Loading stages -/

theorem stage3_holds_FileHandle (holds : ComponentKind → Bool)
    (h : filterMatches LoadingScene.stage3 holds = true) :
    holds ComponentKind.FileHandle = true := by
  simp only [filterMatches, LoadingScene.stage3, List.all_cons, List.all_nil, Bool.and_true,
    Bool.and_eq_true] at h
  exact h.1.1.2.2

theorem stage4_of_FileHandle (holds : ComponentKind → Bool)
    (h : holds ComponentKind.FileHandle = true) :
    filterMatches LoadingScene.stage4 holds = true := by
  simp [filterMatches, LoadingScene.stage4, h]

/-- C13: under the filter matching rule every component set that matches the
stage3 filter also matches the stage4 filter; hence every entity of the
stage3 subscription is in the stage4 subscription, and the unparsed count
that `updateLoadProgress` reads never exceeds the loaded count. -/
theorem stage3_within_stage4 (w : World F) :
    (∀ holds : ComponentKind → Bool, filterMatches LoadingScene.stage3 holds = true →
      filterMatches LoadingScene.stage4 holds = true) ∧
    (∀ e, e ∈ w.GetEntities LoadingScene.stage3 → e ∈ w.GetEntities LoadingScene.stage4) ∧
    (w.GetEntities LoadingScene.stage3).length ≤ (w.GetEntities LoadingScene.stage4).length := by
  have hm : ∀ holds : ComponentKind → Bool, filterMatches LoadingScene.stage3 holds = true →
      filterMatches LoadingScene.stage4 holds = true :=
    fun holds h => stage4_of_FileHandle holds (stage3_holds_FileHandle holds h)
  refine ⟨hm, ?_, ?_⟩
  · intro e he
    obtain ⟨h1, h2⟩ := List.mem_filter.mp he
    exact List.mem_filter.mpr ⟨h1, hm _ h2⟩
  · apply List.Sublist.length_le
    exact List.monotone_filter_right _ (fun e he => hm _ he)

/-- Witness for C13: a file entity with path, type and handle is in stage3,
hence in stage4. -/
theorem stage3_within_stage4_witness :
    0 ∈ World.oneHandled.GetEntities LoadingScene.stage3 ∧
    0 ∈ World.oneHandled.GetEntities LoadingScene.stage4 :=
  ⟨by decide, (stage3_within_stage4 World.oneHandled).2.1 0 (by decide)⟩

/-! ## Cleaning an archive path -/

theorem utf8ByteSize_go_replace (l : List Char) :
    String.utf8ByteSize.go (l.map (fun c => if c = '/' then '\\' else c))
      = String.utf8ByteSize.go l := by
  induction l with
  | nil => rfl
  | cons c l ih =>
    simp only [List.map_cons, String.utf8ByteSize.go, ih]
    by_cases hc : c = '/'
    · subst hc
      rfl
    · simp [hc]

theorem no_slash_after_replace (l : List Char) :
    '/' ∉ l.map (fun c => if c = '/' then '\\' else c) := by
  intro h
  obtain ⟨c, _, hc⟩ := List.mem_map.mp h
  by_cases hs : c = '/'
  · rw [if_pos hs] at hc
    exact absurd hc (by decide)
  · rw [if_neg hs] at hc
    exact hs hc

/-- C14: `cleanMpqPath` succeeds exactly on non-empty paths.  For every
non-empty path the result is the path with every slash replaced by a
backslash and then at most one leading backslash removed; it contains no
slash, and its length (in characters and in bytes) is the input's length or
one less. -/
theorem cleanMpqPath_spec (path : String) :
    (mpqSource.cleanMpqPath path = none ↔ path = "") ∧
    (path ≠ "" → ∃ r, mpqSource.cleanMpqPath path = some r ∧ r = specCleanPath path ∧
      '/' ∉ r.data ∧
      (r.length = path.length ∨ r.length + 1 = path.length) ∧
      (r.utf8ByteSize = path.utf8ByteSize ∨ r.utf8ByteSize + 1 = path.utf8ByteSize)) := by
  obtain ⟨l⟩ := path
  cases l with
  | nil =>
    refine ⟨⟨fun _ => rfl, fun _ => rfl⟩, fun h => absurd rfl h⟩
  | cons c l =>
    have hne : (⟨c :: l⟩ : String) ≠ "" := by
      intro h
      have := congrArg String.data h
      simp at this
    have hslash := no_slash_after_replace (c :: l)
    have hbytes := utf8ByteSize_go_replace (c :: l)
    simp only [List.map_cons] at hslash hbytes
    by_cases hc : (if c = '/' then '\\' else c) = '\\'
    · have hres : mpqSource.cleanMpqPath ⟨c :: l⟩
          = some ⟨l.map (fun c => if c = '/' then '\\' else c)⟩ := by
        simp only [mpqSource.cleanMpqPath, replaceSlashes, List.map_cons]
        rw [if_pos hc]
      refine ⟨⟨fun h => ?_, fun h => absurd h hne⟩, fun _ => ⟨_, hres, ?_, ?_, ?_, ?_⟩⟩
      · rw [hres] at h
        cases h
      · simp only [specCleanPath, List.map_cons, hc, specStripLeadingBackslash]
      · exact fun h => hslash (List.mem_cons_of_mem _ h)
      · right
        simp [String.length]
      · right
        rw [hc] at hbytes
        simp only [String.utf8ByteSize, String.utf8ByteSize.go] at hbytes ⊢
        have h1 : ('\\' : Char).utf8Size = 1 := by decide
        omega
    · have hres : mpqSource.cleanMpqPath ⟨c :: l⟩
          = some ⟨(c :: l).map (fun c => if c = '/' then '\\' else c)⟩ := by
        simp only [mpqSource.cleanMpqPath, replaceSlashes, List.map_cons]
        rw [if_neg hc]
      refine ⟨⟨fun h => ?_, fun h => absurd h hne⟩, fun _ => ⟨_, hres, ?_, ?_, ?_, ?_⟩⟩
      · rw [hres] at h
        cases h
      · simp only [specCleanPath, List.map_cons]
        congr 1
        generalize (if c = '/' then '\\' else c) = d at hc
        unfold specStripLeadingBackslash
        split
        · rename_i heq
          simp only [List.cons.injEq] at heq
          exact absurd heq.1 hc
        · rfl
      · exact hslash
      · left
        simp [String.length]
      · left
        simp only [List.map_cons, String.utf8ByteSize]
        exact hbytes

/-- Witness for C14: the loading screen path loses its leading separator and
has its separators turned into backslashes. -/
theorem cleanMpqPath_spec_witness :
    ∃ r, mpqSource.cleanMpqPath "/data/global/ui/Loading/loadingscreen.dc6" = some r ∧
      r = specCleanPath "/data/global/ui/Loading/loadingscreen.dc6" ∧
      '/' ∉ r.data ∧
      (r.length = String.length "/data/global/ui/Loading/loadingscreen.dc6" ∨
        r.length + 1 = String.length "/data/global/ui/Loading/loadingscreen.dc6") ∧
      (r.utf8ByteSize = String.utf8ByteSize "/data/global/ui/Loading/loadingscreen.dc6" ∨
        r.utf8ByteSize + 1
          = String.utf8ByteSize "/data/global/ui/Loading/loadingscreen.dc6") :=
  (cleanMpqPath_spec "/data/global/ui/Loading/loadingscreen.dc6").2 (by decide)

end OpenDiablo2
